import Mathlib

/-!
Shallow embedding of `saleor/attribute/utils.py`: associating attribute values
to a catalog entity (product, variant, page, category, collection), validating
value ownership, resolving the type-level attribute link, replacing the
assignment's value set and recomputing sort order.

The relational store (Django models and ORM calls: `get_or_create`, relation
`set`, `bulk_update`, link `.get`) is not under `src/`; those operations are
modelled from the spec's external-interface contract (spec §6) and marked so.
The five per-kind assignment/value tables are represented as single lists whose
rows carry the entity kind, with globally fresh assignment primary keys.
-/

namespace AttrAssoc

/-- The runtime kind of an entity instance; `other` stands for any class
outside the five supported ones (the `else` branch of the isinstance chain). -/
inductive EntityKind
| product
| productVariant
| page
| category
| collection
| other (clsName : String)
deriving DecidableEq, Repr

/-- An `AttributeValue` row, reduced to its primary key. -/
structure AttributeValue where
  pk : Nat
deriving DecidableEq, Repr

/-- An `Attribute` row: its primary key and the primary keys of the
`AttributeValue` rows it owns (`attribute.values.values_list("pk", flat=True)`). -/
structure Attribute where
  pk : Nat
  value_pks : List Nat
deriving DecidableEq, Repr

/-- A type-level attribute link row (`AttributeProduct` / `AttributeVariant` /
`AttributePage` / category or collection link): its own primary key and the
linked attribute's id. -/
structure Link where
  pk : Nat
  attribute_id : Nat
deriving DecidableEq, Repr

/-- An entity instance: its primary key, runtime kind, and the type-level link
collection reachable from it (product → its product type's product-attribute
links, variant → its product's product type's variant-attribute links,
page → its page type's page-attribute links). For category/collection the
links come from site settings instead and this field is unused. -/
structure Inst where
  pk : Nat
  kind : EntityKind
  type_links : List Link
deriving DecidableEq, Repr

/-- The global site-settings object carrying the per-kind link collections
used for categories and collections. -/
structure SiteSettings where
  category_attributes : List Link
  collection_attributes : List Link
deriving DecidableEq, Repr

/-- An `Assigned*Attribute` row: the join record between one entity instance
and one type-level link, keyed by (kind, instance, link). -/
structure Assignment where
  pk : Nat
  kind : EntityKind
  instance_pk : Nat
  link_pk : Nat
deriving DecidableEq, Repr

/-- An `Assigned*AttributeValue` row: joins an assignment to one value and
carries the display `sort_order` (none until the sort step sets it). -/
structure AssignedValue where
  assignment_pk : Nat
  value_pk : Nat
  sort_order : Option Nat
deriving DecidableEq, Repr

/-- The relational store, restricted to the rows this module touches. -/
structure Store where
  assignments : List Assignment
  assigned_values : List AssignedValue
  next_assignment_pk : Nat
deriving DecidableEq, Repr

/-- The errors the module can raise: the two `AssertionError`s of utils.py,
Django's `DoesNotExist` from `.get`, Python's `ValueError` from `list.index`,
`AttributeError` from `getattr(None, ...)` and `KeyError` from a dict lookup. -/
inductive AssocError
| valueOwnership
| linkNotFound
| unsupportedEntity
| valueNotInAssignment
| attributeError
| keyError
deriving DecidableEq, Repr

/-- Translation of `validate_attribute_owns_values` (utils.py 59-67): the intersection of the
attribute's actual value ids with the requested ids must equal the requested
ids, else `AssertionError` ("Some values are not from the provided attribute"). -/
def validate_attribute_owns_values (attr : Attribute) (value_ids : Finset Nat) :
    Except AssocError Unit :=
  let attribute_actual_value_ids := attr.value_pks.toFinset
  let found_associated_ids := attribute_actual_value_ids ∩ value_ids
  if found_associated_ids ≠ value_ids then
    Except.error AssocError.valueOwnership
  else
    Except.ok ()

/-- Modelled from the spec: "fetch an entity's type-scoped attribute-link
collection filtered by attribute identifier" — Django's
`links.get(attribute_id=attribute_pk)`, raising `DoesNotExist`
(`LinkNotFoundError`) when no row matches. -/
def link_get (links : List Link) (attribute_pk : Nat) : Except AssocError Link :=
  match links.find? (fun l => decide (l.attribute_id = attribute_pk)) with
  | some l => Except.ok l
  | none => Except.error AssocError.linkNotFound

/-- Modelled from the spec: "get-or-create keyed by a composite key" — Django's
`Model.objects.get_or_create` on the assignment table, keyed by
(kind, instance, link); a created row takes the next fresh primary key. -/
def get_or_create (store : Store) (kind : EntityKind) (instance_pk link_pk : Nat) :
    Assignment × Store :=
  match store.assignments.find? (fun a =>
      decide (a.kind = kind ∧ a.instance_pk = instance_pk ∧ a.link_pk = link_pk)) with
  | some a => (a, store)
  | none =>
      let a : Assignment :=
        { pk := store.next_assignment_pk, kind := kind,
          instance_pk := instance_pk, link_pk := link_pk }
      (a, { store with
              assignments := store.assignments ++ [a],
              next_assignment_pk := store.next_assignment_pk + 1 })

/-- Translation of `_get_associate_category_or_collection_attribute` (utils.py 108-126):
the class-name dict lookup (`KeyError` for other kinds), then
`getattr(site_settings, lookup)` (`AttributeError` when `site_settings` is
`None`), then the link `.get` and the assignment get-or-create. -/
def _get_associate_category_or_collection_attribute (inst : Inst) (attribute_pk : Nat)
    (site_settings : Option SiteSettings) (store : Store) :
    Except AssocError (Assignment × Store) := do
  let links ← match inst.kind, site_settings with
    | EntityKind.category, some ss => Except.ok ss.category_attributes
    | EntityKind.collection, some ss => Except.ok ss.collection_attributes
    | EntityKind.category, none => Except.error AssocError.attributeError
    | EntityKind.collection, none => Except.error AssocError.attributeError
    | _, _ => Except.error AssocError.keyError
  let attribute_rel ← link_get links attribute_pk
  Except.ok (get_or_create store inst.kind inst.pk attribute_rel.pk)

/-- Translation of `_associate_attribute_to_instance` (utils.py 70-105): isinstance dispatch
over the five supported kinds; the `else` branch raises `AssertionError`
(`UnsupportedEntityError`). -/
def _associate_attribute_to_instance (inst : Inst) (attribute_pk : Nat)
    (site_settings : Option SiteSettings) (store : Store) :
    Except AssocError (Assignment × Store) :=
  match inst.kind with
  | EntityKind.product => do
      let attribute_rel ← link_get inst.type_links attribute_pk
      Except.ok (get_or_create store EntityKind.product inst.pk attribute_rel.pk)
  | EntityKind.productVariant => do
      let attribute_rel ← link_get inst.type_links attribute_pk
      Except.ok (get_or_create store EntityKind.productVariant inst.pk attribute_rel.pk)
  | EntityKind.page => do
      let attribute_rel ← link_get inst.type_links attribute_pk
      Except.ok (get_or_create store EntityKind.page inst.pk attribute_rel.pk)
  | EntityKind.category =>
      _get_associate_category_or_collection_attribute inst attribute_pk site_settings store
  | EntityKind.collection =>
      _get_associate_category_or_collection_attribute inst attribute_pk site_settings store
  | EntityKind.other _ => Except.error AssocError.unsupportedEntity

/-- Modelled from the spec: "set (replace) a to-many relation" —
`assignment.values.set(values)` keeps the through rows whose value stays in
the new set, removes the rest, and inserts rows (with unset sort order) for
values not yet present. -/
def values_set (store : Store) (assignment_pk : Nat) (vals : List AttributeValue) : Store :=
  let new_pks := (vals.map (fun v => v.pk)).dedup
  let existing := (store.assigned_values.filter
      (fun av => decide (av.assignment_pk = assignment_pk))).map (fun av => av.value_pk)
  let kept := store.assigned_values.filter
      (fun av => decide (av.assignment_pk ≠ assignment_pk ∨ av.value_pk ∈ new_pks))
  let added := (new_pks.filter (fun (p : Nat) => decide (p ∉ existing))).map
      (fun p => { assignment_pk := assignment_pk, value_pk := p, sort_order := none })
  { store with assigned_values := kept ++ added }

/-- The `instance_to_value_assignment_mapping` dict of
`sort_assigned_attribute_values` (utils.py 136-142): the related-name for each
supported kind, `KeyError` otherwise. -/
def instance_to_value_assignment_mapping (kind : EntityKind) : Option String :=
  match kind with
  | EntityKind.product => some ("productvalueassignment")
  | EntityKind.productVariant => some ("variantvalueassignment")
  | EntityKind.page => some ("pagevalueassignment")
  | EntityKind.category => some ("categoryvalueassignment")
  | EntityKind.collection => some ("collectionvalueassignment")
  | EntityKind.other _ => none

/-- How one stored row is affected by a batched update: it takes the new sort
order of the updated row carrying its (assignment, value) key — the key is
unique per the schema's uniqueness constraint — and is untouched when no
updated row matches. -/
def apply_update (updated : List AssignedValue) (av : AssignedValue) : AssignedValue :=
  match updated.find? (fun u =>
      decide (u.assignment_pk = av.assignment_pk ∧ u.value_pk = av.value_pk)) with
  | some u => { av with sort_order := u.sort_order }
  | none => av

/-- Modelled from the spec: "batch-update a numeric field across a list of
records" — `bulk_update(rows, ["sort_order"])` applied to the store. -/
def bulk_update (store : Store) (updated : List AssignedValue) : Store :=
  { store with assigned_values := store.assigned_values.map (apply_update updated) }

/-- The comparison of `values_assignment.sort(key=lambda e: values_pks.index(e.value.pk))`:
compare rows by the position of their value id in the caller's sequence. -/
def sort_key_le (values_pks : List Nat) (a b : AssignedValue) : Bool :=
  decide (values_pks.indexOf a.value_pk ≤ values_pks.indexOf b.value_pk)

/-- The stable sort plus the `enumerate` loop of `sort_assigned_attribute_values`:
order the rows by their value's position in `values_pks` and stamp each row
with its dense 0-based index as the new sort order. -/
def sorted_value_rows (values_pks : List Nat) (rows : List AssignedValue) :
    List AssignedValue :=
  (rows.mergeSort (sort_key_le values_pks)).enum.map
    (fun p => { p.2 with sort_order := some p.1 })

/-- Translation of `sort_assigned_attribute_values` (utils.py 129-155): dict lookup by kind,
re-read the assignment's value rows, sort them by the position of each row's
value id in `vals` (Python's stable `list.sort` with `key=`, computing
`values_pks.index(...)` for every row, which raises `ValueError` when a row's
value id is absent), write back dense 0-based sort orders via `bulk_update`. -/
def sort_assigned_attribute_values (inst : Inst) (assignment : Assignment)
    (vals : List AttributeValue) (store : Store) : Except AssocError Store := do
  let _ ← match instance_to_value_assignment_mapping inst.kind with
    | some lookupName => Except.ok lookupName
    | none => Except.error AssocError.keyError
  let values_pks := vals.map (fun v => v.pk)
  let values_assignment := store.assigned_values.filter
      (fun av => decide (av.assignment_pk = assignment.pk))
  if values_assignment.all (fun av => decide (av.value_pk ∈ values_pks)) then
    Except.ok (bulk_update store (sorted_value_rows values_pks values_assignment))
  else
    Except.error AssocError.valueNotInAssignment

/-- Translation of `associate_attribute_values_to_instance` (utils.py 34-56): build the id
set, validate ownership, resolve/create the assignment, replace its value set,
recompute sort order, return the assignment. -/
def associate_attribute_values_to_instance (inst : Inst) (attr : Attribute)
    (vals : List AttributeValue) (site_settings : Option SiteSettings) (store : Store) :
    Except AssocError (Assignment × Store) := do
  let values_ids := (vals.map (fun v => v.pk)).toFinset
  let _ ← validate_attribute_owns_values attr values_ids
  let (assignment, store1) ←
    _associate_attribute_to_instance inst attr.pk site_settings store
  let store2 := values_set store1 assignment.pk vals
  let store3 ← sort_assigned_attribute_values inst assignment vals store2
  Except.ok (assignment, store3)

/-- The value rows currently attached to the assignment with primary key
`apk`, in store order. -/
def assignment_rows (s : Store) (apk : Nat) : List AssignedValue :=
  s.assigned_values.filter (fun av => decide (av.assignment_pk = apk))

/-- The link collection `_associate_attribute_to_instance` reads for a given
instance and settings, when the kind is supported and (for category or
collection) settings are present. -/
def resolved_links (inst : Inst) (site_settings : Option SiteSettings) : Option (List Link) :=
  match inst.kind, site_settings with
  | EntityKind.product, _ => some inst.type_links
  | EntityKind.productVariant, _ => some inst.type_links
  | EntityKind.page, _ => some inst.type_links
  | EntityKind.category, some ss => some ss.category_attributes
  | EntityKind.collection, some ss => some ss.collection_attributes
  | _, _ => none

/-- Store well-formedness: the schema's uniqueness constraint on value rows —
no two rows share the same (assignment, value) pair. -/
def StoreWf (s : Store) : Prop :=
  (s.assigned_values.map (fun av => (av.assignment_pk, av.value_pk))).Nodup

/-! ### Lemmas about the validation and lookup steps -/

theorem except_bind_ok {α β : Type} (x : α) (f : α → Except AssocError β) :
    Except.bind (Except.ok x) f = f x := rfl

theorem except_bind_error {α β : Type} (e : AssocError) (f : α → Except AssocError β) :
    Except.bind (Except.error e) f = Except.error e := rfl

theorem validate_ok_iff (attr : Attribute) (ids : Finset Nat) :
    validate_attribute_owns_values attr ids = Except.ok () ↔
      ids ⊆ attr.value_pks.toFinset := by
  unfold validate_attribute_owns_values
  by_cases h : ids ⊆ attr.value_pks.toFinset
  · simp [Finset.inter_eq_right.mpr h, h]
  · have hne : attr.value_pks.toFinset ∩ ids ≠ ids :=
      fun he => h (Finset.inter_eq_right.mp he)
    simp [hne, h]

theorem validate_error_iff (attr : Attribute) (ids : Finset Nat) :
    validate_attribute_owns_values attr ids = Except.error AssocError.valueOwnership ↔
      ¬ ids ⊆ attr.value_pks.toFinset := by
  unfold validate_attribute_owns_values
  by_cases h : ids ⊆ attr.value_pks.toFinset
  · simp [Finset.inter_eq_right.mpr h, h]
  · have hne : attr.value_pks.toFinset ∩ ids ≠ ids :=
      fun he => h (Finset.inter_eq_right.mp he)
    simp [hne, h]

theorem link_get_error_iff (links : List Link) (apk : Nat) :
    link_get links apk = Except.error AssocError.linkNotFound ↔
      ∀ l ∈ links, l.attribute_id ≠ apk := by
  unfold link_get
  cases h : links.find? (fun l => decide (l.attribute_id = apk)) with
  | none =>
      rw [List.find?_eq_none] at h
      simpa using h
  | some l =>
      have hmem := List.mem_of_find?_eq_some h
      have hp := List.find?_some h
      simp only [decide_eq_true_eq] at hp
      simp only [reduceCtorEq, false_iff, not_forall]
      exact ⟨l, hmem, by simpa using hp⟩

theorem link_get_ok_mem {links : List Link} {apk : Nat} {l : Link}
    (h : link_get links apk = Except.ok l) : l ∈ links ∧ l.attribute_id = apk := by
  unfold link_get at h
  cases hf : links.find? (fun l => decide (l.attribute_id = apk)) with
  | none => rw [hf] at h; exact absurd h (by simp)
  | some l0 =>
      rw [hf] at h
      have hl : l0 = l := by simpa using h
      subst hl
      exact ⟨List.mem_of_find?_eq_some hf, by simpa using List.find?_some hf⟩

theorem link_get_isOk {links : List Link} {apk : Nat}
    (h : ∃ l ∈ links, l.attribute_id = apk) :
    ∃ rel, link_get links apk = Except.ok rel := by
  unfold link_get
  cases hf : links.find? (fun l => decide (l.attribute_id = apk)) with
  | none =>
      rw [List.find?_eq_none] at hf
      obtain ⟨l, hl, he⟩ := h
      exact absurd he (by simpa using hf l hl)
  | some l => exact ⟨l, rfl⟩

/-! ### Lemmas about get-or-create -/

theorem get_or_create_av (s : Store) (k : EntityKind) (ipk lpk : Nat) :
    ((get_or_create s k ipk lpk).2).assigned_values = s.assigned_values := by
  unfold get_or_create
  split <;> rfl

theorem get_or_create_fields (s : Store) (k : EntityKind) (ipk lpk : Nat) :
    ((get_or_create s k ipk lpk).1).kind = k ∧
    ((get_or_create s k ipk lpk).1).instance_pk = ipk ∧
    ((get_or_create s k ipk lpk).1).link_pk = lpk := by
  unfold get_or_create
  split
  · next a hf =>
      have := List.find?_some hf
      simp only [decide_eq_true_eq] at this
      exact this
  · next => exact ⟨rfl, rfl, rfl⟩

theorem get_or_create_assignments (s : Store) (k : EntityKind) (ipk lpk : Nat) :
    ((get_or_create s k ipk lpk).2).assignments = s.assignments ∨
    ((get_or_create s k ipk lpk).2).assignments =
      s.assignments ++ [(get_or_create s k ipk lpk).1] := by
  unfold get_or_create
  split
  · next => exact Or.inl rfl
  · next => exact Or.inr rfl

theorem get_or_create_again (s : Store) (k : EntityKind) (ipk lpk : Nat) :
    get_or_create ((get_or_create s k ipk lpk).2) k ipk lpk = get_or_create s k ipk lpk := by
  cases hf : s.assignments.find? (fun a =>
      decide (a.kind = k ∧ a.instance_pk = ipk ∧ a.link_pk = lpk)) with
  | some a =>
      have h1 : get_or_create s k ipk lpk = (a, s) := by
        unfold get_or_create; rw [hf]
      rw [h1]
      unfold get_or_create; rw [hf]
  | none =>
      have h1 : get_or_create s k ipk lpk =
          ({ pk := s.next_assignment_pk, kind := k, instance_pk := ipk, link_pk := lpk },
           { assignments := s.assignments ++
                [{ pk := s.next_assignment_pk, kind := k, instance_pk := ipk, link_pk := lpk }],
             assigned_values := s.assigned_values,
             next_assignment_pk := s.next_assignment_pk + 1 }) := by
        unfold get_or_create; rw [hf]
      rw [h1]
      unfold get_or_create
      have hf2 : List.find? (fun a => decide (a.kind = k) &&
          (decide (a.instance_pk = ipk) && decide (a.link_pk = lpk))) s.assignments = none := by
        simpa using hf
      simp [List.find?_append, hf2]

/-! ### The dispatch step as link resolution plus get-or-create -/

theorem _associate_eq_of_resolved {inst : Inst} {ss : Option SiteSettings}
    {links : List Link} (apk : Nat) (s : Store)
    (hres : resolved_links inst ss = some links) :
    _associate_attribute_to_instance inst apk ss s =
      Except.bind (link_get links apk)
        (fun rel => Except.ok (get_or_create s inst.kind inst.pk rel.pk)) := by
  unfold resolved_links at hres
  unfold _associate_attribute_to_instance _get_associate_category_or_collection_attribute
  cases hk : inst.kind with
  | product =>
      rw [hk] at hres
      obtain rfl : inst.type_links = links := by simpa using hres
      rfl
  | productVariant =>
      rw [hk] at hres
      obtain rfl : inst.type_links = links := by simpa using hres
      rfl
  | page =>
      rw [hk] at hres
      obtain rfl : inst.type_links = links := by simpa using hres
      rfl
  | category =>
      rw [hk] at hres
      cases ss with
      | none => exact absurd hres (by simp)
      | some st =>
          obtain rfl : st.category_attributes = links := by simpa using hres
          rfl
  | collection =>
      rw [hk] at hres
      cases ss with
      | none => exact absurd hres (by simp)
      | some st =>
          obtain rfl : st.collection_attributes = links := by simpa using hres
          rfl
  | other n =>
      rw [hk] at hres
      exact absurd hres (by simp)

theorem _associate_ok_of_resolved {inst : Inst} {apk : Nat} {ss : Option SiteSettings}
    {links : List Link} {rel : Link} (s : Store)
    (hres : resolved_links inst ss = some links)
    (hl : link_get links apk = Except.ok rel) :
    _associate_attribute_to_instance inst apk ss s =
      Except.ok (get_or_create s inst.kind inst.pk rel.pk) := by
  rw [_associate_eq_of_resolved apk s hres, hl, except_bind_ok]

theorem _associate_error_of_resolved {inst : Inst} {apk : Nat} {ss : Option SiteSettings}
    {links : List Link} {e : AssocError} (s : Store)
    (hres : resolved_links inst ss = some links)
    (hl : link_get links apk = Except.error e) :
    _associate_attribute_to_instance inst apk ss s = Except.error e := by
  rw [_associate_eq_of_resolved apk s hres, hl, except_bind_error]

theorem _associate_ok_inversion {inst : Inst} {apk : Nat} {ss : Option SiteSettings}
    {s : Store} {a : Assignment} {s1 : Store}
    (h : _associate_attribute_to_instance inst apk ss s = Except.ok (a, s1)) :
    ∃ links rel, resolved_links inst ss = some links ∧
      link_get links apk = Except.ok rel ∧
      (a, s1) = get_or_create s inst.kind inst.pk rel.pk := by
  cases hres : resolved_links inst ss with
  | none =>
      exfalso
      unfold resolved_links at hres
      unfold _associate_attribute_to_instance _get_associate_category_or_collection_attribute at h
      cases hk : inst.kind <;> rw [hk] at hres h <;> cases ss <;>
        simp_all [Bind.bind, Except.bind]
  | some links =>
      rw [_associate_eq_of_resolved apk s hres] at h
      cases hl : link_get links apk with
      | error e => rw [hl, except_bind_error] at h; exact absurd h (by simp)
      | ok rel =>
          rw [hl, except_bind_ok] at h
          exact ⟨links, rel, rfl, hl, by simpa using h.symm⟩

/-! ### Lemmas about the value-set replacement -/

theorem values_set_assignments (s : Store) (apk : Nat) (vals : List AttributeValue) :
    (values_set s apk vals).assignments = s.assignments := rfl

theorem values_set_next (s : Store) (apk : Nat) (vals : List AttributeValue) :
    (values_set s apk vals).next_assignment_pk = s.next_assignment_pk := rfl

theorem values_set_frame (s : Store) (apk : Nat) (vals : List AttributeValue) :
    (values_set s apk vals).assigned_values.filter
        (fun av => decide (av.assignment_pk ≠ apk)) =
      s.assigned_values.filter (fun av => decide (av.assignment_pk ≠ apk)) := by
  unfold values_set
  rw [List.filter_append]
  have hadded : ((((vals.map (fun v => v.pk)).dedup).filter (fun (p : Nat) =>
        decide (p ∉ ((s.assigned_values.filter
          (fun av => decide (av.assignment_pk = apk))).map (fun av => av.value_pk))))).map
        (fun p => ({ assignment_pk := apk, value_pk := p, sort_order := none } :
          AssignedValue))).filter (fun av => decide (av.assignment_pk ≠ apk)) = [] := by
    rw [List.filter_eq_nil_iff]
    intro av hmem
    rw [List.mem_map] at hmem
    obtain ⟨p, _, rfl⟩ := hmem
    simp
  rw [hadded, List.append_nil, List.filter_filter]
  apply List.filter_congr
  intro av _
  by_cases h : av.assignment_pk = apk <;> simp [h]

theorem values_set_rows_subset {s : Store} {apk : Nat} {vals : List AttributeValue} :
    ∀ av ∈ (values_set s apk vals).assigned_values, av.assignment_pk = apk →
      av.value_pk ∈ vals.map (fun v => v.pk) := by
  intro av hmem heq
  unfold values_set at hmem
  rw [List.mem_append] at hmem
  cases hmem with
  | inl h =>
      rw [List.mem_filter] at h
      have := h.2
      simp only [decide_eq_true_eq] at this
      cases this with
      | inl hne => exact absurd heq hne
      | inr hin => exact List.mem_dedup.mp hin
  | inr h =>
      rw [List.mem_map] at h
      obtain ⟨p, hp, rfl⟩ := h
      rw [List.mem_filter] at hp
      exact List.mem_dedup.mp hp.1

theorem values_set_rows_complete {s : Store} {apk : Nat} {vals : List AttributeValue} :
    ∀ p ∈ vals.map (fun v => v.pk), ∃ av ∈ (values_set s apk vals).assigned_values,
      av.assignment_pk = apk ∧ av.value_pk = p := by
  intro p hp
  have hpd : p ∈ (vals.map (fun v => v.pk)).dedup := List.mem_dedup.mpr hp
  by_cases hex : p ∈ (s.assigned_values.filter
      (fun av => decide (av.assignment_pk = apk))).map (fun av => av.value_pk)
  · rw [List.mem_map] at hex
    obtain ⟨av, hav, rfl⟩ := hex
    rw [List.mem_filter] at hav
    have heq : av.assignment_pk = apk := by simpa using hav.2
    refine ⟨av, ?_, heq, rfl⟩
    unfold values_set
    rw [List.mem_append]
    left
    rw [List.mem_filter]
    exact ⟨hav.1, by simp [heq, hpd]⟩
  · refine ⟨{ assignment_pk := apk, value_pk := p, sort_order := none }, ?_, rfl, rfl⟩
    unfold values_set
    rw [List.mem_append]
    right
    rw [List.mem_map]
    refine ⟨p, ?_, rfl⟩
    rw [List.mem_filter]
    exact ⟨hpd, by simpa using hex⟩

theorem rows_values_nodup_of_wf {s : Store} (apk : Nat) (hwf : StoreWf s) :
    ((assignment_rows s apk).map (fun av => av.value_pk)).Nodup := by
  have hsub : (assignment_rows s apk).Sublist s.assigned_values := List.filter_sublist _
  have hpairs : ((assignment_rows s apk).map
      (fun av => (av.assignment_pk, av.value_pk))).Nodup :=
    (hsub.map _).nodup hwf
  rw [List.Nodup, List.pairwise_map] at hpairs ⊢
  refine hpairs.imp_of_mem ?_
  intro a b ha hb hne heq
  unfold assignment_rows at ha hb
  rw [List.mem_filter] at ha hb
  apply hne
  have ha2 : a.assignment_pk = apk := by simpa using ha.2
  have hb2 : b.assignment_pk = apk := by simpa using hb.2
  rw [ha2, hb2, heq]

theorem values_set_rows_nodup {s : Store} {apk : Nat} {vals : List AttributeValue}
    (hwf : StoreWf s) :
    ((assignment_rows (values_set s apk vals) apk).map (fun av => av.value_pk)).Nodup := by
  unfold assignment_rows values_set
  rw [List.filter_append, List.map_append, List.nodup_append]
  refine ⟨?_, ?_, ?_⟩
  · -- kept rows of the assignment are a sublist of the original rows of the assignment
    exact ((((List.filter_sublist s.assigned_values).filter
      (fun av => decide (av.assignment_pk = apk))).map _).nodup
        (rows_values_nodup_of_wf apk hwf))
  · -- added rows carry the deduplicated new pks not already present
    rw [List.filter_map, List.map_map]
    have h2 : ((fun av : AssignedValue => decide (av.assignment_pk = apk)) ∘ (fun p =>
        ({ assignment_pk := apk, value_pk := p, sort_order := none } : AssignedValue))) =
        fun _ => true := by
      funext p
      simp
    rw [h2, List.filter_true]
    have h3 : ((fun av : AssignedValue => av.value_pk) ∘ (fun p =>
        ({ assignment_pk := apk, value_pk := p, sort_order := none } : AssignedValue))) =
        id := rfl
    rw [h3, List.map_id]
    exact (List.nodup_dedup _).filter _
  · -- disjoint: kept values already belong to the assignment, added values do not
    intro v hv1 hv2
    rw [List.mem_map] at hv1 hv2
    obtain ⟨av, hav, rfl⟩ := hv1
    obtain ⟨av2, hav2, hveq⟩ := hv2
    rw [List.mem_filter] at hav hav2
    obtain ⟨havk, hava⟩ := hav
    obtain ⟨hav2k, -⟩ := hav2
    rw [List.mem_filter] at havk
    rw [List.mem_map] at hav2k
    obtain ⟨p, hp, rfl⟩ := hav2k
    rw [List.mem_filter] at hp
    have hpnot := hp.2
    simp only [decide_eq_true_eq] at hpnot hava
    apply hpnot
    rw [List.mem_map]
    refine ⟨av, ?_, by simpa using hveq.symm⟩
    rw [List.mem_filter]
    exact ⟨havk.1, by simp [hava]⟩

theorem values_set_wf {s : Store} {apk : Nat} {vals : List AttributeValue}
    (hwf : StoreWf s) : StoreWf (values_set s apk vals) := by
  unfold StoreWf values_set
  rw [List.map_append, List.nodup_append]
  refine ⟨((List.filter_sublist _).map _).nodup hwf, ?_, ?_⟩
  · rw [List.map_map]
    have hinj : ∀ x ∈ ((vals.map (fun v => v.pk)).dedup.filter (fun (p : Nat) =>
          decide (p ∉ ((s.assigned_values.filter
            (fun av => decide (av.assignment_pk = apk))).map (fun av => av.value_pk))))),
        ∀ y ∈ ((vals.map (fun v => v.pk)).dedup.filter (fun (p : Nat) =>
          decide (p ∉ ((s.assigned_values.filter
            (fun av => decide (av.assignment_pk = apk))).map (fun av => av.value_pk))))),
        (((fun av : AssignedValue => (av.assignment_pk, av.value_pk)) ∘ (fun p =>
          ({ assignment_pk := apk, value_pk := p, sort_order := none } : AssignedValue))) x =
         ((fun av : AssignedValue => (av.assignment_pk, av.value_pk)) ∘ (fun p =>
          ({ assignment_pk := apk, value_pk := p, sort_order := none } : AssignedValue))) y) →
        x = y := by
      intro x _ y _ h
      simpa using h
    exact List.Nodup.map_on hinj ((List.nodup_dedup (vals.map (fun v => v.pk))).filter _)
  · intro pr hpr1 hpr2
    rw [List.mem_map] at hpr1 hpr2
    obtain ⟨av, hav, rfl⟩ := hpr1
    obtain ⟨av2, hav2, heqv⟩ := hpr2
    rw [List.mem_filter] at hav
    rw [List.mem_map] at hav2
    obtain ⟨p, hp, rfl⟩ := hav2
    have heq1 : av.assignment_pk = apk := by
      have := congrArg Prod.fst heqv
      simpa using this.symm
    have heq2 : av.value_pk = p := by
      have := congrArg Prod.snd heqv
      simpa using this.symm
    rw [List.mem_filter] at hp
    have hnotin := hp.2
    simp only [decide_eq_true_eq] at hnotin
    apply hnotin
    rw [List.mem_map]
    refine ⟨av, ?_, heq2⟩
    rw [List.mem_filter]
    exact ⟨hav.1, by simp [heq1]⟩

/-! ### Lemmas about the batched sort-order update -/

theorem apply_update_assignment_pk (u : List AssignedValue) (av : AssignedValue) :
    (apply_update u av).assignment_pk = av.assignment_pk := by
  unfold apply_update
  split <;> rfl

theorem apply_update_value_pk (u : List AssignedValue) (av : AssignedValue) :
    (apply_update u av).value_pk = av.value_pk := by
  unfold apply_update
  split <;> rfl

theorem bulk_update_pairs (s : Store) (u : List AssignedValue) :
    (bulk_update s u).assigned_values.map (fun av => (av.assignment_pk, av.value_pk)) =
      s.assigned_values.map (fun av => (av.assignment_pk, av.value_pk)) := by
  unfold bulk_update
  rw [List.map_map]
  apply List.map_congr_left
  intro av _
  simp only [Function.comp_apply]
  rw [apply_update_assignment_pk, apply_update_value_pk]

theorem bulk_update_assignments (s : Store) (u : List AssignedValue) :
    (bulk_update s u).assignments = s.assignments := rfl

theorem bulk_update_next (s : Store) (u : List AssignedValue) :
    (bulk_update s u).next_assignment_pk = s.next_assignment_pk := rfl

theorem bulk_update_wf {s : Store} (u : List AssignedValue) (hwf : StoreWf s) :
    StoreWf (bulk_update s u) := by
  unfold StoreWf
  rw [bulk_update_pairs]
  exact hwf

theorem bulk_update_rows (s : Store) (u : List AssignedValue) (apk : Nat) :
    assignment_rows (bulk_update s u) apk = (assignment_rows s apk).map (apply_update u) := by
  unfold bulk_update assignment_rows
  rw [List.filter_map]
  congr 1
  apply List.filter_congr
  intro av _
  simp only [Function.comp_apply]
  rw [apply_update_assignment_pk]

theorem bulk_update_frame {apk : Nat} (s : Store) (u : List AssignedValue)
    (hu : ∀ x ∈ u, x.assignment_pk = apk) :
    (bulk_update s u).assigned_values.filter (fun av => decide (av.assignment_pk ≠ apk)) =
      s.assigned_values.filter (fun av => decide (av.assignment_pk ≠ apk)) := by
  unfold bulk_update
  rw [List.filter_map]
  have h1 : s.assigned_values.filter
      ((fun av => decide (av.assignment_pk ≠ apk)) ∘ apply_update u) =
      s.assigned_values.filter (fun av => decide (av.assignment_pk ≠ apk)) := by
    apply List.filter_congr
    intro av _
    simp only [Function.comp_apply]
    rw [apply_update_assignment_pk]
  rw [h1]
  conv_rhs => rw [← List.map_id (s.assigned_values.filter
    (fun av => decide (av.assignment_pk ≠ apk)))]
  apply List.map_congr_left
  intro av hav
  rw [List.mem_filter] at hav
  have hne : av.assignment_pk ≠ apk := by simpa using hav.2
  have hnone : u.find? (fun u0 =>
      decide (u0.assignment_pk = av.assignment_pk ∧ u0.value_pk = av.value_pk)) = none := by
    rw [List.find?_eq_none]
    intro x hx
    simp only [decide_eq_true_eq, not_and]
    intro hxa
    exact fun _ => hne (hxa.symm.trans (hu x hx))
  unfold apply_update
  rw [hnone]
  rfl

/-! ### The associate pipeline as explicit stages -/

theorem bindM_ok {α β : Type} (x : α) (f : α → Except AssocError β) :
    (Bind.bind (Except.ok x) f) = f x := rfl

theorem bindM_error {α β : Type} (e : AssocError) (f : α → Except AssocError β) :
    (Bind.bind (Except.error e) f) = Except.error e := rfl

theorem associate_eq_pipeline {inst : Inst} {attr : Attribute} {vals : List AttributeValue}
    {ss : Option SiteSettings} {s : Store} {a : Assignment} {s1 : Store}
    (hvalid : validate_attribute_owns_values attr ((vals.map (fun v => v.pk)).toFinset) =
      Except.ok ())
    (hassoc : _associate_attribute_to_instance inst attr.pk ss s = Except.ok (a, s1)) :
    associate_attribute_values_to_instance inst attr vals ss s =
      Except.bind (sort_assigned_attribute_values inst a vals (values_set s1 a.pk vals))
        (fun s3 => Except.ok (a, s3)) := by
  simp only [associate_attribute_values_to_instance]
  rw [hvalid, bindM_ok, hassoc, bindM_ok]
  rfl

theorem associate_error_validate {inst : Inst} {attr : Attribute} {vals : List AttributeValue}
    {ss : Option SiteSettings} {s : Store} {e : AssocError}
    (hvalid : validate_attribute_owns_values attr ((vals.map (fun v => v.pk)).toFinset) =
      Except.error e) :
    associate_attribute_values_to_instance inst attr vals ss s = Except.error e := by
  simp only [associate_attribute_values_to_instance]
  rw [hvalid, bindM_error]

theorem associate_error_assoc {inst : Inst} {attr : Attribute} {vals : List AttributeValue}
    {ss : Option SiteSettings} {s : Store} {e : AssocError}
    (hvalid : validate_attribute_owns_values attr ((vals.map (fun v => v.pk)).toFinset) =
      Except.ok ())
    (hassoc : _associate_attribute_to_instance inst attr.pk ss s = Except.error e) :
    associate_attribute_values_to_instance inst attr vals ss s = Except.error e := by
  simp only [associate_attribute_values_to_instance]
  rw [hvalid, bindM_ok, hassoc, bindM_error]

theorem validate_ok_of_owned {attr : Attribute} {vals : List AttributeValue}
    (hown : ∀ v ∈ vals, v.pk ∈ attr.value_pks) :
    validate_attribute_owns_values attr ((vals.map (fun v => v.pk)).toFinset) =
      Except.ok () := by
  rw [validate_ok_iff]
  intro p hp
  rw [List.mem_toFinset, List.mem_map] at hp
  obtain ⟨v, hv, rfl⟩ := hp
  rw [List.mem_toFinset]
  exact hown v hv

/-! ### Dispatch error cases -/

theorem _associate_unsupported {inst : Inst} {n : String} (apk : Nat)
    (ss : Option SiteSettings) (s : Store) (hk : inst.kind = EntityKind.other n) :
    _associate_attribute_to_instance inst apk ss s =
      Except.error AssocError.unsupportedEntity := by
  unfold _associate_attribute_to_instance
  rw [hk]

theorem _associate_no_settings {inst : Inst} (apk : Nat) (s : Store)
    (hk : inst.kind = EntityKind.category ∨ inst.kind = EntityKind.collection) :
    _associate_attribute_to_instance inst apk none s =
      Except.error AssocError.attributeError := by
  unfold _associate_attribute_to_instance _get_associate_category_or_collection_attribute
  cases hk with
  | inl h => rw [h]; rfl
  | inr h => rw [h]; rfl

/-! ### Reuse of the assignment on a later call -/

theorem get_or_create_found {s' s : Store} {a : Assignment} {s1 : Store}
    (k : EntityKind) (ipk lpk : Nat)
    (h : (a, s1) = get_or_create s k ipk lpk) (hA : s'.assignments = s1.assignments) :
    get_or_create s' k ipk lpk = (a, s') := by
  cases hf : s.assignments.find? (fun a =>
      decide (a.kind = k ∧ a.instance_pk = ipk ∧ a.link_pk = lpk)) with
  | some a0 =>
      have h1 : get_or_create s k ipk lpk = (a0, s) := by
        unfold get_or_create; rw [hf]
      rw [h1] at h
      obtain ⟨rfl, rfl⟩ : a = a0 ∧ s1 = s := by
        constructor <;> [exact congrArg Prod.fst h; exact congrArg Prod.snd h]
      unfold get_or_create
      rw [hA, hf]
  | none =>
      have h1 : get_or_create s k ipk lpk =
          ({ pk := s.next_assignment_pk, kind := k, instance_pk := ipk, link_pk := lpk },
           { assignments := s.assignments ++
                [{ pk := s.next_assignment_pk, kind := k, instance_pk := ipk, link_pk := lpk }],
             assigned_values := s.assigned_values,
             next_assignment_pk := s.next_assignment_pk + 1 }) := by
        unfold get_or_create; rw [hf]
      rw [h1] at h
      have ha : a =
          ({ pk := s.next_assignment_pk, kind := k, instance_pk := ipk,
             link_pk := lpk } : Assignment) := congrArg Prod.fst h
      have hs1 : s1.assignments = s.assignments ++ [a] := by
        rw [ha, congrArg Store.assignments (congrArg Prod.snd h)]
      have hf2 : s'.assignments.find? (fun a =>
          decide (a.kind = k ∧ a.instance_pk = ipk ∧ a.link_pk = lpk)) = some a := by
        rw [hA, hs1, List.find?_append, hf]
        simp [ha]
      unfold get_or_create
      rw [hf2]

theorem get_or_create_countP {s : Store} (k : EntityKind) (ipk lpk : Nat)
    (q : EntityKind) (i2 l2 : Nat)
    (h : s.assignments.countP (fun a =>
        decide (a.kind = q ∧ a.instance_pk = i2 ∧ a.link_pk = l2)) ≤ 1) :
    ((get_or_create s k ipk lpk).2).assignments.countP (fun a =>
        decide (a.kind = q ∧ a.instance_pk = i2 ∧ a.link_pk = l2)) ≤ 1 := by
  cases hf : s.assignments.find? (fun a =>
      decide (a.kind = k ∧ a.instance_pk = ipk ∧ a.link_pk = lpk)) with
  | some a0 =>
      have h1 : get_or_create s k ipk lpk = (a0, s) := by
        unfold get_or_create; rw [hf]
      rw [h1]
      exact h
  | none =>
      have h1 : get_or_create s k ipk lpk =
          ({ pk := s.next_assignment_pk, kind := k, instance_pk := ipk, link_pk := lpk },
           { assignments := s.assignments ++
                [{ pk := s.next_assignment_pk, kind := k, instance_pk := ipk, link_pk := lpk }],
             assigned_values := s.assigned_values,
             next_assignment_pk := s.next_assignment_pk + 1 }) := by
        unfold get_or_create; rw [hf]
      rw [h1]
      simp only [List.countP_append]
      by_cases hq : q = k ∧ i2 = ipk ∧ l2 = lpk
      · obtain ⟨rfl, rfl, rfl⟩ := hq
        have hzero : s.assignments.countP (fun a =>
            decide (a.kind = q ∧ a.instance_pk = i2 ∧ a.link_pk = l2)) = 0 := by
          rw [List.countP_eq_zero]
          rw [List.find?_eq_none] at hf
          exact hf
        rw [hzero]
        simp [List.countP_cons]
      · have hone : List.countP (fun a =>
            decide (a.kind = q ∧ a.instance_pk = i2 ∧ a.link_pk = l2))
            [({ pk := s.next_assignment_pk, kind := k, instance_pk := ipk, link_pk := lpk } :
              Assignment)] = 0 := by
          rw [List.countP_eq_zero]
          intro x hx
          rw [List.mem_singleton] at hx
          subst hx
          simp only [decide_eq_true_eq]
          intro hcon
          exact hq ⟨hcon.1.symm ▸ rfl, hcon.2.1.symm ▸ rfl, hcon.2.2.symm ▸ rfl⟩
        rw [hone, Nat.add_zero]
        exact h

/-! ### Replacing with the same value set is a no-op -/

theorem values_set_id {s : Store} {apk : Nat} {vals : List AttributeValue}
    (hsub : ∀ av ∈ s.assigned_values, av.assignment_pk = apk →
      av.value_pk ∈ vals.map (fun v => v.pk))
    (hcomp : ∀ p ∈ vals.map (fun v => v.pk), ∃ av ∈ s.assigned_values,
      av.assignment_pk = apk ∧ av.value_pk = p) :
    values_set s apk vals = s := by
  simp only [values_set]
  have hkept : s.assigned_values.filter (fun av =>
      decide (av.assignment_pk ≠ apk ∨ av.value_pk ∈ (vals.map (fun v => v.pk)).dedup)) =
      s.assigned_values := by
    rw [List.filter_eq_self]
    intro av hav
    by_cases h : av.assignment_pk = apk
    · simp [h, List.mem_dedup.mpr (hsub av hav h)]
    · simp [h]
  have hadded : (vals.map (fun v => v.pk)).dedup.filter (fun (p : Nat) =>
      decide (p ∉ ((s.assigned_values.filter
        (fun av => decide (av.assignment_pk = apk))).map (fun av => av.value_pk)))) = [] := by
    rw [List.filter_eq_nil_iff]
    intro p hp
    obtain ⟨av, hav, heq, hval⟩ := hcomp p (List.mem_dedup.mp hp)
    simp only [decide_eq_true_eq, not_not]
    rw [List.mem_map]
    exact ⟨av, by rw [List.mem_filter]; exact ⟨hav, by simp [heq]⟩, hval⟩
  rw [hkept, hadded]
  simp

/-! ### Re-running the batched update is a no-op -/

theorem apply_update_idem (u : List AssignedValue) (av : AssignedValue) :
    apply_update u (apply_update u av) = apply_update u av := by
  cases hf : u.find? (fun u0 =>
      decide (u0.assignment_pk = av.assignment_pk ∧ u0.value_pk = av.value_pk)) with
  | none =>
      have h1 : apply_update u av = av := by
        unfold apply_update; rw [hf]
      rw [h1, h1]
  | some u0 =>
      have h1 : apply_update u av = { av with sort_order := u0.sort_order } := by
        unfold apply_update; rw [hf]
      rw [h1]
      unfold apply_update
      rw [show ({ av with sort_order := u0.sort_order } : AssignedValue).assignment_pk =
        av.assignment_pk from rfl]
      rw [show ({ av with sort_order := u0.sort_order } : AssignedValue).value_pk =
        av.value_pk from rfl]
      rw [hf]

theorem bulk_update_idem (s : Store) (u : List AssignedValue) :
    bulk_update (bulk_update s u) u = bulk_update s u := by
  unfold bulk_update
  simp only [List.map_map]
  congr 1
  apply List.map_congr_left
  intro av _
  simp only [Function.comp_apply]
  exact apply_update_idem u av

/-! ### The sort step: keys, order, and the stamped rows -/

theorem sort_key_le_trans (pks : List Nat) : ∀ a b c : AssignedValue,
    sort_key_le pks a b = true → sort_key_le pks b c = true →
      sort_key_le pks a c = true := by
  intro a b c hab hbc
  simp only [sort_key_le, decide_eq_true_eq] at hab hbc ⊢
  exact le_trans hab hbc

theorem sort_key_le_total (pks : List Nat) : ∀ a b : AssignedValue,
    (sort_key_le pks a b || sort_key_le pks b a) = true := by
  intro a b
  simp only [sort_key_le, Bool.or_eq_true, decide_eq_true_eq]
  exact Nat.le_total _ _

theorem mergeSort_key_sorted (pks : List Nat) (rows : List AssignedValue) :
    List.Sorted (· ≤ ·) ((rows.mergeSort (sort_key_le pks)).map
      (fun av => pks.indexOf av.value_pk)) := by
  rw [List.Sorted, List.pairwise_map]
  have h := List.sorted_mergeSort (sort_key_le_trans pks) (sort_key_le_total pks) rows
  exact h.imp (fun hab => by simpa [sort_key_le] using hab)

theorem map_indexOf_self {pks : List Nat} (hpks : pks.Nodup) :
    pks.map (fun p => pks.indexOf p) = List.range pks.length := by
  apply List.ext_getElem
  · simp
  · intro n h1 h2
    rw [List.getElem_map, List.getElem_range]
    exact List.indexOf_getElem hpks n (by simpa using h1)

theorem mergeSort_keys_range {pks : List Nat} {rows : List AssignedValue}
    (hpks : pks.Nodup)
    (hnodup : (rows.map (fun av => av.value_pk)).Nodup)
    (hiff : ∀ p, p ∈ rows.map (fun av => av.value_pk) ↔ p ∈ pks) :
    (rows.mergeSort (sort_key_le pks)).map (fun av => pks.indexOf av.value_pk) =
      List.range pks.length := by
  have hperm0 : (rows.mergeSort (sort_key_le pks)).Perm rows :=
    List.mergeSort_perm rows _
  have hvalperm : ((rows.mergeSort (sort_key_le pks)).map
      (fun av => av.value_pk)).Perm (rows.map (fun av => av.value_pk)) := hperm0.map _
  have hvp : (rows.map (fun av => av.value_pk)).Perm pks :=
    (List.perm_ext_iff_of_nodup hnodup hpks).mpr hiff
  have e1 : (rows.mergeSort (sort_key_le pks)).map (fun av => pks.indexOf av.value_pk) =
      ((rows.mergeSort (sort_key_le pks)).map (fun av => av.value_pk)).map
        (fun p => pks.indexOf p) := by rw [List.map_map]; rfl
  have hkeysperm : ((rows.mergeSort (sort_key_le pks)).map
      (fun av => pks.indexOf av.value_pk)).Perm (List.range pks.length) := by
    rw [e1, ← map_indexOf_self hpks]
    exact (hvalperm.trans hvp).map _
  have hrange : List.Sorted (· ≤ ·) (List.range pks.length) :=
    (List.pairwise_lt_range _).imp le_of_lt
  exact List.eq_of_perm_of_sorted hkeysperm (mergeSort_key_sorted pks rows) hrange

theorem sorted_value_rows_mem_dense {pks : List Nat} {rows : List AssignedValue}
    (hpks : pks.Nodup)
    (hnodup : (rows.map (fun av => av.value_pk)).Nodup)
    (hiff : ∀ p, p ∈ rows.map (fun av => av.value_pk) ↔ p ∈ pks) :
    ∀ u ∈ sorted_value_rows pks rows, u.sort_order = some (pks.indexOf u.value_pk) := by
  intro u hu
  unfold sorted_value_rows at hu
  rw [List.mem_map] at hu
  obtain ⟨p, hp, rfl⟩ := hu
  rw [List.mem_iff_getElem] at hp
  obtain ⟨j, hj, hpj⟩ := hp
  rw [List.getElem_enum] at hpj
  have hjlen : j < (rows.mergeSort (sort_key_le pks)).length := by
    simpa [List.enum_length] using hj
  have hkey : pks.indexOf ((rows.mergeSort (sort_key_le pks))[j]).value_pk = j := by
    have h1 := mergeSort_keys_range hpks hnodup hiff
    have hjm : j < ((rows.mergeSort (sort_key_le pks)).map
        (fun av => pks.indexOf av.value_pk)).length := by simpa using hjlen
    have h2 : ((rows.mergeSort (sort_key_le pks)).map
        (fun av => pks.indexOf av.value_pk))[j] = j := by
      rw [List.getElem_of_eq h1 hjm]
      exact List.getElem_range _ _
    rw [List.getElem_map] at h2
    exact h2
  subst hpj
  show some j = some (pks.indexOf ((rows.mergeSort (sort_key_le pks))[j]).value_pk)
  rw [hkey]

theorem sorted_value_rows_assignment {pks : List Nat} {rows : List AssignedValue}
    {apk : Nat} (h : ∀ av ∈ rows, av.assignment_pk = apk) :
    ∀ u ∈ sorted_value_rows pks rows, u.assignment_pk = apk := by
  intro u hu
  unfold sorted_value_rows at hu
  rw [List.mem_map] at hu
  obtain ⟨p, hp, rfl⟩ := hu
  have hsnd : p.2 ∈ rows.mergeSort (sort_key_le pks) := by
    have he := List.enum_map_snd (rows.mergeSort (sort_key_le pks))
    rw [← he]
    exact List.mem_map.mpr ⟨p, hp, rfl⟩
  show p.2.assignment_pk = apk
  exact h _ ((List.mergeSort_perm rows _).mem_iff.mp hsnd)

theorem sorted_value_rows_values (pks : List Nat) (rows : List AssignedValue) :
    (sorted_value_rows pks rows).map (fun av => av.value_pk) =
      (rows.mergeSort (sort_key_le pks)).map (fun av => av.value_pk) := by
  unfold sorted_value_rows
  rw [List.map_map]
  rw [show ((fun av : AssignedValue => av.value_pk) ∘ (fun p : Nat × AssignedValue =>
    { p.2 with sort_order := some p.1 })) =
    ((fun av : AssignedValue => av.value_pk) ∘ Prod.snd) from rfl]
  rw [← List.map_map, List.enum_map_snd]

theorem bulk_update_sorted_rows {s : Store} {apk : Nat} {pks : List Nat}
    (hpks : pks.Nodup)
    (hnodup : ((assignment_rows s apk).map (fun av => av.value_pk)).Nodup)
    (hiff : ∀ p, p ∈ (assignment_rows s apk).map (fun av => av.value_pk) ↔ p ∈ pks) :
    ∀ av ∈ assignment_rows
        (bulk_update s (sorted_value_rows pks (assignment_rows s apk))) apk,
      av.sort_order = some (pks.indexOf av.value_pk) := by
  intro av hav
  rw [bulk_update_rows, List.mem_map] at hav
  obtain ⟨av0, hav0, rfl⟩ := hav
  have hassign : ∀ x ∈ assignment_rows s apk, x.assignment_pk = apk := by
    intro x hx
    unfold assignment_rows at hx
    rw [List.mem_filter] at hx
    simpa using hx.2
  have hmemval : av0.value_pk ∈ (sorted_value_rows pks (assignment_rows s apk)).map
      (fun x => x.value_pk) := by
    rw [sorted_value_rows_values]
    have : av0.value_pk ∈ (assignment_rows s apk).map (fun x => x.value_pk) :=
      List.mem_map.mpr ⟨av0, hav0, rfl⟩
    have hperm := ((List.mergeSort_perm (assignment_rows s apk)
      (sort_key_le pks)).map (fun x : AssignedValue => x.value_pk))
    exact hperm.mem_iff.mpr this
  obtain ⟨u1, hu1, hu1v⟩ := List.mem_map.mp hmemval
  cases hf : (sorted_value_rows pks (assignment_rows s apk)).find? (fun u0 =>
      decide (u0.assignment_pk = av0.assignment_pk ∧ u0.value_pk = av0.value_pk)) with
  | none =>
      exfalso
      rw [List.find?_eq_none] at hf
      apply hf u1 hu1
      have h1 : u1.assignment_pk = av0.assignment_pk := by
        rw [sorted_value_rows_assignment hassign u1 hu1, hassign av0 hav0]
      simp [h1, hu1v]
  | some u2 =>
      have hp2 := List.find?_some hf
      have hm2 := List.mem_of_find?_eq_some hf
      simp only [decide_eq_true_eq] at hp2
      have hso := sorted_value_rows_mem_dense hpks hnodup hiff u2 hm2
      have happ : apply_update (sorted_value_rows pks (assignment_rows s apk)) av0 =
          { av0 with sort_order := u2.sort_order } := by
        unfold apply_update
        rw [hf]
      rw [happ]
      show u2.sort_order = some (pks.indexOf av0.value_pk)
      rw [hso, hp2.2]

/-! ### The sort step's success and failure shapes -/

theorem mapping_isSome_of_resolved {inst : Inst} {ss : Option SiteSettings}
    {links : List Link} (hres : resolved_links inst ss = some links) :
    (instance_to_value_assignment_mapping inst.kind).isSome = true := by
  unfold resolved_links at hres
  unfold instance_to_value_assignment_mapping
  cases hk : inst.kind <;> rw [hk] at hres <;> cases ss <;> simp_all

theorem sort_eq_ok {inst : Inst} {assignment : Assignment} {vals : List AttributeValue}
    {s : Store}
    (hkind : (instance_to_value_assignment_mapping inst.kind).isSome = true)
    (hmem : ∀ av ∈ assignment_rows s assignment.pk,
      av.value_pk ∈ vals.map (fun v => v.pk)) :
    sort_assigned_attribute_values inst assignment vals s =
      Except.ok (bulk_update s (sorted_value_rows (vals.map (fun v => v.pk))
        (assignment_rows s assignment.pk))) := by
  cases hmap : instance_to_value_assignment_mapping inst.kind with
  | none => rw [hmap] at hkind; simp at hkind
  | some nm =>
      have hcond : (s.assigned_values.filter
          (fun av => decide (av.assignment_pk = assignment.pk))).all
          (fun av => decide (av.value_pk ∈ vals.map (fun v => v.pk))) = true := by
        rw [List.all_eq_true]
        intro av hmem2
        exact decide_eq_true (hmem av hmem2)
      simp only [sort_assigned_attribute_values, hmap, bindM_ok, hcond, if_true]
      rfl

theorem sort_eq_error {inst : Inst} {assignment : Assignment} {vals : List AttributeValue}
    {s : Store}
    (hkind : (instance_to_value_assignment_mapping inst.kind).isSome = true)
    (hbad : ∃ av ∈ assignment_rows s assignment.pk,
      ¬ av.value_pk ∈ vals.map (fun v => v.pk)) :
    sort_assigned_attribute_values inst assignment vals s =
      Except.error AssocError.valueNotInAssignment := by
  cases hmap : instance_to_value_assignment_mapping inst.kind with
  | none => rw [hmap] at hkind; simp at hkind
  | some nm =>
      have hcond : (s.assigned_values.filter
          (fun av => decide (av.assignment_pk = assignment.pk))).all
          (fun av => decide (av.value_pk ∈ vals.map (fun v => v.pk))) = false := by
        rw [Bool.eq_false_iff]
        intro hall
        rw [List.all_eq_true] at hall
        obtain ⟨av, hav, hbadv⟩ := hbad
        exact hbadv (by simpa using hall av hav)
      simp only [sort_assigned_attribute_values, hmap, bindM_ok, hcond, Bool.false_eq_true,
        if_false]

/-! ### The sorted rows depend only on the rows' value sequence -/

theorem mergeSort_values_congr {pks : List Nat}
    {rows1 rows2 : List AssignedValue}
    (hval : rows2.map (fun av => av.value_pk) = rows1.map (fun av => av.value_pk))
    (hmem : ∀ av ∈ rows1, av.value_pk ∈ pks) :
    (rows2.mergeSort (sort_key_le pks)).map (fun av => av.value_pk) =
      (rows1.mergeSort (sort_key_le pks)).map (fun av => av.value_pk) := by
  have hmem2 : ∀ av ∈ rows2, av.value_pk ∈ pks := by
    intro av hav
    have : av.value_pk ∈ rows1.map (fun av => av.value_pk) := by
      rw [← hval]
      exact List.mem_map.mpr ⟨av, hav, rfl⟩
    obtain ⟨av1, hav1, he⟩ := List.mem_map.mp this
    rw [← he]
    exact hmem av1 hav1
  have hK : (rows2.mergeSort (sort_key_le pks)).map (fun av => pks.indexOf av.value_pk) =
      (rows1.mergeSort (sort_key_le pks)).map (fun av => pks.indexOf av.value_pk) := by
    have hperm : ((rows2.mergeSort (sort_key_le pks)).map
        (fun av => pks.indexOf av.value_pk)).Perm
        ((rows1.mergeSort (sort_key_le pks)).map (fun av => pks.indexOf av.value_pk)) := by
      have e2 : (rows2.mergeSort (sort_key_le pks)).map
          (fun av => pks.indexOf av.value_pk) =
          ((rows2.mergeSort (sort_key_le pks)).map (fun av => av.value_pk)).map
            (fun p => pks.indexOf p) := by rw [List.map_map]; rfl
      have e1 : (rows1.mergeSort (sort_key_le pks)).map
          (fun av => pks.indexOf av.value_pk) =
          ((rows1.mergeSort (sort_key_le pks)).map (fun av => av.value_pk)).map
            (fun p => pks.indexOf p) := by rw [List.map_map]; rfl
      rw [e1, e2]
      apply List.Perm.map
      have p1 : ((rows2.mergeSort (sort_key_le pks)).map (fun av => av.value_pk)).Perm
          (rows2.map (fun av => av.value_pk)) := (List.mergeSort_perm rows2 _).map _
      have p3 : (rows1.map (fun av => av.value_pk)).Perm
          ((rows1.mergeSort (sort_key_le pks)).map (fun av => av.value_pk)) :=
        ((List.mergeSort_perm rows1 _).map _).symm
      have p2 : (rows2.map (fun av => av.value_pk)).Perm
          ((rows1.mergeSort (sort_key_le pks)).map (fun av => av.value_pk)) := by
        rw [hval]
        exact p3
      exact p1.trans p2
    exact List.eq_of_perm_of_sorted hperm
      (mergeSort_key_sorted pks rows2) (mergeSort_key_sorted pks rows1)
  have recover : ∀ rows : List AssignedValue, (∀ av ∈ rows, av.value_pk ∈ pks) →
      (rows.mergeSort (sort_key_le pks)).map (fun av => av.value_pk) =
        ((rows.mergeSort (sort_key_le pks)).map
          (fun av => pks.indexOf av.value_pk)).map (fun k => pks.getD k 0) := by
    intro rows hm
    rw [List.map_map]
    apply List.map_congr_left
    intro av hav
    have hmm : av.value_pk ∈ pks :=
      hm av ((List.mergeSort_perm rows _).mem_iff.mp hav)
    have hlt : pks.indexOf av.value_pk < pks.length := List.indexOf_lt_length.mpr hmm
    simp only [Function.comp_apply]
    rw [List.getD_eq_getElem pks 0 hlt, List.getElem_indexOf hlt]
  rw [recover rows2 hmem2, recover rows1 hmem, hK]

theorem stamp_by_values_from {apk : Nat} (n : Nat) (ms : List AssignedValue)
    (h : ∀ av ∈ ms, av.assignment_pk = apk) :
    (ms.enumFrom n).map (fun p => { p.2 with sort_order := some p.1 }) =
      ((ms.map (fun av => av.value_pk)).enumFrom n).map
        (fun q => ({ assignment_pk := apk, value_pk := q.2, sort_order := some q.1 } :
          AssignedValue)) := by
  induction ms generalizing n with
  | nil => rfl
  | cons x xs ih =>
      rw [List.map_cons, List.enumFrom_cons, List.enumFrom_cons, List.map_cons,
        List.map_cons]
      congr 1
      · have hx := h x (List.mem_cons_self x xs)
        show ({ x with sort_order := some n } : AssignedValue) =
          { assignment_pk := apk, value_pk := x.value_pk, sort_order := some n }
        rw [← hx]
      · exact ih (n + 1) (fun av hav => h av (List.mem_cons_of_mem x hav))

theorem sorted_value_rows_congr {pks : List Nat} {apk : Nat}
    {rows1 rows2 : List AssignedValue}
    (hval : rows2.map (fun av => av.value_pk) = rows1.map (fun av => av.value_pk))
    (ha1 : ∀ av ∈ rows1, av.assignment_pk = apk)
    (ha2 : ∀ av ∈ rows2, av.assignment_pk = apk)
    (hmem : ∀ av ∈ rows1, av.value_pk ∈ pks) :
    sorted_value_rows pks rows2 = sorted_value_rows pks rows1 := by
  have hms := mergeSort_values_congr hval hmem
  have hms2assign : ∀ av ∈ rows2.mergeSort (sort_key_le pks), av.assignment_pk = apk :=
    fun av hav => ha2 av ((List.mergeSort_perm rows2 _).mem_iff.mp hav)
  have hms1assign : ∀ av ∈ rows1.mergeSort (sort_key_le pks), av.assignment_pk = apk :=
    fun av hav => ha1 av ((List.mergeSort_perm rows1 _).mem_iff.mp hav)
  unfold sorted_value_rows
  rw [show ((rows2.mergeSort (sort_key_le pks)).enum) =
    (rows2.mergeSort (sort_key_le pks)).enumFrom 0 from rfl]
  rw [show ((rows1.mergeSort (sort_key_le pks)).enum) =
    (rows1.mergeSort (sort_key_le pks)).enumFrom 0 from rfl]
  rw [stamp_by_values_from 0 _ hms2assign, stamp_by_values_from 0 _ hms1assign, hms]

/-! ### The omnibus success lemma -/

theorem associate_ok_main {inst : Inst} {attr : Attribute} {vals : List AttributeValue}
    {ss : Option SiteSettings} {links : List Link} {rel : Link} (s : Store)
    (hres : resolved_links inst ss = some links)
    (hlink : link_get links attr.pk = Except.ok rel)
    (hown : ∀ v ∈ vals, v.pk ∈ attr.value_pks) :
    ∃ a s3, associate_attribute_values_to_instance inst attr vals ss s =
        Except.ok (a, s3) ∧
      a = (get_or_create s inst.kind inst.pk rel.pk).1 ∧
      s3 = bulk_update (values_set (get_or_create s inst.kind inst.pk rel.pk).2 a.pk vals)
        (sorted_value_rows (vals.map (fun v => v.pk))
          (assignment_rows (values_set (get_or_create s inst.kind inst.pk rel.pk).2
            a.pk vals) a.pk)) := by
  have hvalid := validate_ok_of_owned hown
  have hassoc := _associate_ok_of_resolved s hres hlink
  have hassoc2 : _associate_attribute_to_instance inst attr.pk ss s =
      Except.ok ((get_or_create s inst.kind inst.pk rel.pk).1,
        (get_or_create s inst.kind inst.pk rel.pk).2) := hassoc
  have hpipe := associate_eq_pipeline hvalid hassoc2
  have hmem2 : ∀ av ∈ assignment_rows
      (values_set (get_or_create s inst.kind inst.pk rel.pk).2
        ((get_or_create s inst.kind inst.pk rel.pk).1).pk vals)
      ((get_or_create s inst.kind inst.pk rel.pk).1).pk,
      av.value_pk ∈ vals.map (fun v => v.pk) := by
    intro av hav
    unfold assignment_rows at hav
    rw [List.mem_filter] at hav
    exact values_set_rows_subset av hav.1 (by simpa using hav.2)
  have hsort := sort_eq_ok (mapping_isSome_of_resolved hres) hmem2
  refine ⟨(get_or_create s inst.kind inst.pk rel.pk).1, _, ?_, rfl, rfl⟩
  rw [hpipe, hsort, except_bind_ok]

theorem values_set_rows_values_iff {s : Store} {apk : Nat} {vals : List AttributeValue} :
    ∀ p, (p ∈ (assignment_rows (values_set s apk vals) apk).map (fun av => av.value_pk)) ↔
      p ∈ vals.map (fun v => v.pk) := by
  intro p
  constructor
  · intro hp
    rw [List.mem_map] at hp
    obtain ⟨av, hav, rfl⟩ := hp
    unfold assignment_rows at hav
    rw [List.mem_filter] at hav
    exact values_set_rows_subset av hav.1 (by simpa using hav.2)
  · intro hp
    obtain ⟨av, havmem, heq, hval⟩ := values_set_rows_complete p hp
    rw [List.mem_map]
    refine ⟨av, ?_, hval⟩
    unfold assignment_rows
    rw [List.mem_filter]
    exact ⟨havmem, by simp [heq]⟩

theorem bulk_update_rows_values (s : Store) (u : List AssignedValue) (apk : Nat) :
    (assignment_rows (bulk_update s u) apk).map (fun av => av.value_pk) =
      (assignment_rows s apk).map (fun av => av.value_pk) := by
  rw [bulk_update_rows, List.map_map]
  apply List.map_congr_left
  intro av _
  simp only [Function.comp_apply]
  exact apply_update_value_pk u av

/-! ### Inversion of a successful associate call -/

theorem associate_ok_inversion_full {inst : Inst} {attr : Attribute}
    {vals : List AttributeValue} {ss : Option SiteSettings} {s : Store}
    {a : Assignment} {s3 : Store}
    (h : associate_attribute_values_to_instance inst attr vals ss s =
      Except.ok (a, s3)) :
    validate_attribute_owns_values attr ((vals.map (fun v => v.pk)).toFinset) =
        Except.ok () ∧
      ∃ s1, _associate_attribute_to_instance inst attr.pk ss s = Except.ok (a, s1) ∧
        sort_assigned_attribute_values inst a vals (values_set s1 a.pk vals) =
          Except.ok s3 := by
  cases hv : validate_attribute_owns_values attr ((vals.map (fun v => v.pk)).toFinset) with
  | error e =>
      rw [associate_error_validate hv] at h
      exact absurd h (by simp)
  | ok u =>
      cases u
      cases hassoc : _associate_attribute_to_instance inst attr.pk ss s with
      | error e =>
          rw [associate_error_assoc hv hassoc] at h
          exact absurd h (by simp)
      | ok pr =>
          obtain ⟨a1, s1⟩ := pr
          have hpipe := associate_eq_pipeline hv hassoc
          rw [hpipe] at h
          cases hsort : sort_assigned_attribute_values inst a1 vals
              (values_set s1 a1.pk vals) with
          | error e =>
              rw [hsort, except_bind_error] at h
              exact absurd h (by simp)
          | ok s3x =>
              rw [hsort, except_bind_ok] at h
              obtain ⟨rfl, rfl⟩ : a1 = a ∧ s3x = s3 := by simpa using h
              exact ⟨rfl, s1, rfl, hsort⟩

/-- The shape of the store after a successful sort step that followed a
value-set replacement: the batched update of the stamped sorted rows. -/
theorem sort_after_set_shape {inst : Inst} {a : Assignment} {vals : List AttributeValue}
    {s1 : Store} {s3 : Store} {ss : Option SiteSettings} {links : List Link}
    (hres : resolved_links inst ss = some links)
    (hsort : sort_assigned_attribute_values inst a vals (values_set s1 a.pk vals) =
      Except.ok s3) :
    s3 = bulk_update (values_set s1 a.pk vals)
      (sorted_value_rows (vals.map (fun v => v.pk))
        (assignment_rows (values_set s1 a.pk vals) a.pk)) := by
  have hmem2 : ∀ av ∈ assignment_rows (values_set s1 a.pk vals) a.pk,
      av.value_pk ∈ vals.map (fun v => v.pk) := by
    intro av hav
    unfold assignment_rows at hav
    rw [List.mem_filter] at hav
    exact values_set_rows_subset av hav.1 (by simpa using hav.2)
  have hshape := sort_eq_ok (mapping_isSome_of_resolved hres) hmem2
  rw [hshape] at hsort
  simpa using hsort.symm

/-! ### Frame: a successful call only touches its own assignment -/

theorem associate_frame {inst : Inst} {attr : Attribute} {vals : List AttributeValue}
    {ss : Option SiteSettings} {s : Store} {a : Assignment} {s3 : Store}
    (h : associate_attribute_values_to_instance inst attr vals ss s =
      Except.ok (a, s3)) :
    (s3.assigned_values.filter (fun av => decide (av.assignment_pk ≠ a.pk)) =
      s.assigned_values.filter (fun av => decide (av.assignment_pk ≠ a.pk))) ∧
    (s3.assignments = s.assignments ∨ s3.assignments = s.assignments ++ [a]) := by
  obtain ⟨hv, s1, hassoc, hsort⟩ := associate_ok_inversion_full h
  obtain ⟨links, rel, hres, hlink, hgoc⟩ := _associate_ok_inversion hassoc
  have ha1 : a = (get_or_create s inst.kind inst.pk rel.pk).1 := congrArg Prod.fst hgoc
  have hs1 : s1 = (get_or_create s inst.kind inst.pk rel.pk).2 := congrArg Prod.snd hgoc
  have hav1 : s1.assigned_values = s.assigned_values := by
    rw [hs1]
    exact get_or_create_av s inst.kind inst.pk rel.pk
  have hshape := sort_after_set_shape hres hsort
  have hsvr_assign : ∀ x ∈ sorted_value_rows (vals.map (fun v => v.pk))
      (assignment_rows (values_set s1 a.pk vals) a.pk), x.assignment_pk = a.pk := by
    apply sorted_value_rows_assignment
    intro av hav
    unfold assignment_rows at hav
    rw [List.mem_filter] at hav
    simpa using hav.2
  constructor
  · rw [hshape]
    rw [bulk_update_frame _ _ hsvr_assign]
    rw [values_set_frame]
    rw [hav1]
  · rw [hshape, bulk_update_assignments, values_set_assignments, hs1]
    have := get_or_create_assignments s inst.kind inst.pk rel.pk
    rw [← ha1] at this
    exact this

theorem assignment_rows_assignment (t : Store) (apk : Nat) :
    ∀ av ∈ assignment_rows t apk, av.assignment_pk = apk := by
  intro av hav
  unfold assignment_rows at hav
  rw [List.mem_filter] at hav
  simpa using hav.2

theorem values_set_rows_mem {s : Store} {apk : Nat} {vals : List AttributeValue} :
    ∀ av ∈ assignment_rows (values_set s apk vals) apk,
      av.value_pk ∈ vals.map (fun v => v.pk) := by
  intro av hav
  unfold assignment_rows at hav
  rw [List.mem_filter] at hav
  exact values_set_rows_subset av hav.1 (by simpa using hav.2)

/-! ### The claims -/

/-- C3: for every attribute and value sequence containing at least one value
whose id is not among the attribute's owned value ids, associate raises the
ownership error before performing any mutation (in this embedding an error
leaves the caller with the prior store, so no mutation is observable), and
the membership check is exact: validation succeeds precisely when the
requested id set is a subset of the owned id set. -/
theorem claim_C3 {inst : Inst} {attr : Attribute} {vals : List AttributeValue}
    {ss : Option SiteSettings} {s : Store}
    (hbad : ∃ v ∈ vals, v.pk ∉ attr.value_pks) :
    associate_attribute_values_to_instance inst attr vals ss s =
      Except.error AssocError.valueOwnership ∧
    ∀ ids : Finset Nat, (validate_attribute_owns_values attr ids = Except.ok () ↔
      ids ⊆ attr.value_pks.toFinset) := by
  constructor
  · apply associate_error_validate
    rw [validate_error_iff]
    intro hsub
    obtain ⟨v, hv, hnot⟩ := hbad
    apply hnot
    have hmem : v.pk ∈ (vals.map (fun v => v.pk)).toFinset := by
      rw [List.mem_toFinset, List.mem_map]
      exact ⟨v, hv, rfl⟩
    simpa using hsub hmem
  · exact fun ids => validate_ok_iff attr ids

/-- C5: when the resolved type-level link collection contains no link for the
attribute (and the preceding ownership check passes), associate raises the
link-not-found error; the error is raised before any mutation. -/
theorem claim_C5 {inst : Inst} {attr : Attribute} {vals : List AttributeValue}
    {ss : Option SiteSettings} {s : Store} {links : List Link}
    (hres : resolved_links inst ss = some links)
    (hno : ∀ l ∈ links, l.attribute_id ≠ attr.pk)
    (hown : ∀ v ∈ vals, v.pk ∈ attr.value_pks) :
    associate_attribute_values_to_instance inst attr vals ss s =
      Except.error AssocError.linkNotFound := by
  apply associate_error_assoc (validate_ok_of_owned hown)
  exact _associate_error_of_resolved s hres ((link_get_error_iff links attr.pk).mpr hno)

/-- C6: during sort recomputation, if any re-read value row of the assignment
references a value id absent from the caller-supplied sequence, the sort step
fails with the value-not-in-assignment error instead of silently assigning
that row a sort order. -/
theorem claim_C6 {inst : Inst} {assignment : Assignment} {vals : List AttributeValue}
    {s : Store}
    (hkind : (instance_to_value_assignment_mapping inst.kind).isSome = true)
    (hbad : ∃ av ∈ assignment_rows s assignment.pk,
      ¬ av.value_pk ∈ vals.map (fun v => v.pk)) :
    sort_assigned_attribute_values inst assignment vals s =
      Except.error AssocError.valueNotInAssignment :=
  sort_eq_error hkind hbad

/-- C7: for every instance whose runtime kind is outside the five supported
kinds (and whose values pass the preceding ownership check), associate raises
the unsupported-entity error, before any mutation. -/
theorem claim_C7 {inst : Inst} {attr : Attribute} {vals : List AttributeValue}
    {ss : Option SiteSettings} {s : Store} {n : String}
    (hkind : inst.kind = EntityKind.other n)
    (hown : ∀ v ∈ vals, v.pk ∈ attr.value_pks) :
    associate_attribute_values_to_instance inst attr vals ss s =
      Except.error AssocError.unsupportedEntity := by
  apply associate_error_assoc (validate_ok_of_owned hown)
  exact _associate_unsupported attr.pk ss s hkind

/-- C9: when the instance is a category or collection and no site-settings
object is supplied, associate fails with the attribute-access error on the
missing settings — an error distinct from the link-not-found and
unsupported-entity errors — before any row is created or modified. -/
theorem claim_C9 {inst : Inst} {attr : Attribute} {vals : List AttributeValue}
    {s : Store}
    (hkind : inst.kind = EntityKind.category ∨ inst.kind = EntityKind.collection)
    (hown : ∀ v ∈ vals, v.pk ∈ attr.value_pks) :
    associate_attribute_values_to_instance inst attr vals none s =
      Except.error AssocError.attributeError := by
  apply associate_error_assoc (validate_ok_of_owned hown)
  exact _associate_no_settings attr.pk s hkind

/-- C10: for every supported instance whose type has a link for the attribute,
associate with an empty value sequence succeeds — the ownership check passes
vacuously — the assignment is left with an empty value set, and the sort step
updates zero rows (every surviving store row is an untouched original of
another assignment) while the assignment is still returned. -/
theorem claim_C10 {inst : Inst} {attr : Attribute} {ss : Option SiteSettings}
    {s : Store} {links : List Link} {rel : Link}
    (hres : resolved_links inst ss = some links)
    (hlink : link_get links attr.pk = Except.ok rel) :
    ∃ a s3, associate_attribute_values_to_instance inst attr [] ss s =
        Except.ok (a, s3) ∧
      assignment_rows s3 a.pk = [] ∧
      s3.assigned_values =
        s.assigned_values.filter (fun av => decide (av.assignment_pk ≠ a.pk)) := by
  obtain ⟨a, s3, hok, ha, hs3⟩ := @associate_ok_main inst attr [] ss links rel s
    hres hlink (by intro v hv; exact absurd hv (List.not_mem_nil v))
  have hvs : ∀ t : Store, (values_set t a.pk ([] : List AttributeValue)).assigned_values =
      t.assigned_values.filter (fun av => decide (av.assignment_pk ≠ a.pk)) := by
    intro t
    simp only [values_set, List.map_nil, List.dedup_nil, List.filter_nil,
      List.append_nil]
    apply List.filter_congr
    intro av _
    simp
  have hrows2 : ∀ t : Store,
      assignment_rows (values_set t a.pk ([] : List AttributeValue)) a.pk = [] := by
    intro t
    unfold assignment_rows
    rw [hvs t, List.filter_filter, List.filter_eq_nil_iff]
    intro av _
    simp
  have hsvr : sorted_value_rows (([] : List AttributeValue).map (fun v => v.pk))
      ([] : List AssignedValue) = [] := by
    unfold sorted_value_rows
    rw [List.mergeSort_nil]
    rfl
  have hbu : ∀ t : Store, bulk_update t [] = t := by
    intro t
    unfold bulk_update
    have happ : ∀ av, apply_update [] av = av := by
      intro av
      unfold apply_update
      rfl
    rw [List.map_congr_left (fun av _ => happ av)]
    rw [show (List.map (fun av : AssignedValue => av) t.assigned_values) =
      List.map id t.assigned_values from rfl]
    rw [List.map_id]
  have hs3id : s3 = values_set (get_or_create s inst.kind inst.pk rel.pk).2 a.pk [] := by
    rw [hs3, hrows2, hsvr, hbu]
  refine ⟨a, s3, hok, ?_, ?_⟩
  · rw [hs3id]
    exact hrows2 _
  · rw [hs3id, hvs, get_or_create_av]

/-- C1: for every attribute, every supported instance whose type has a link
for the attribute, and every value sequence owned by the attribute, associate
succeeds and the assignment's value set afterwards is exactly the set of
supplied value ids; a second call with another owned sequence again replaces
the set exactly, so values of the first call absent from the second are no
longer associated. -/
theorem claim_C1 {inst : Inst} {attr : Attribute} {vals : List AttributeValue}
    {ss : Option SiteSettings} {s : Store} {links : List Link} {rel : Link}
    (hres : resolved_links inst ss = some links)
    (hlink : link_get links attr.pk = Except.ok rel)
    (hown : ∀ v ∈ vals, v.pk ∈ attr.value_pks) :
    ∃ a s3, associate_attribute_values_to_instance inst attr vals ss s =
        Except.ok (a, s3) ∧
      (∀ p, p ∈ (assignment_rows s3 a.pk).map (fun av => av.value_pk) ↔
        p ∈ vals.map (fun v => v.pk)) ∧
      ∀ vals2 : List AttributeValue, (∀ v ∈ vals2, v.pk ∈ attr.value_pks) →
        ∃ s4, associate_attribute_values_to_instance inst attr vals2 ss s3 =
            Except.ok (a, s4) ∧
          (∀ p, p ∈ (assignment_rows s4 a.pk).map (fun av => av.value_pk) ↔
            p ∈ vals2.map (fun v => v.pk)) ∧
          (∀ v ∈ vals, v.pk ∉ vals2.map (fun v => v.pk) →
            v.pk ∉ (assignment_rows s4 a.pk).map (fun av => av.value_pk)) := by
  obtain ⟨a, s3, hok, ha, hs3⟩ := associate_ok_main s hres hlink hown
  have hset1 : ∀ p, p ∈ (assignment_rows s3 a.pk).map (fun av => av.value_pk) ↔
      p ∈ vals.map (fun v => v.pk) := by
    intro p
    rw [hs3, bulk_update_rows_values]
    exact values_set_rows_values_iff p
  refine ⟨a, s3, hok, hset1, ?_⟩
  intro vals2 hown2
  obtain ⟨a2, s4, hok2, ha2, hs4⟩ := associate_ok_main s3 hres hlink hown2
  have hpair : (a, (get_or_create s inst.kind inst.pk rel.pk).2) =
      get_or_create s inst.kind inst.pk rel.pk := by rw [ha]
  have hA3 : s3.assignments = ((get_or_create s inst.kind inst.pk rel.pk).2).assignments := by
    rw [hs3, bulk_update_assignments, values_set_assignments]
  have hgocfound : get_or_create s3 inst.kind inst.pk rel.pk = (a, s3) :=
    get_or_create_found inst.kind inst.pk rel.pk hpair hA3
  have haa : a2 = a := by rw [ha2, hgocfound]
  have hsnd : (get_or_create s3 inst.kind inst.pk rel.pk).2 = s3 := by rw [hgocfound]
  have hset2 : ∀ p, p ∈ (assignment_rows s4 a.pk).map (fun av => av.value_pk) ↔
      p ∈ vals2.map (fun v => v.pk) := by
    intro p
    rw [← haa, hs4, bulk_update_rows_values]
    exact values_set_rows_values_iff p
  refine ⟨s4, by rw [← haa]; exact hok2, hset2, ?_⟩
  intro v hv hnot2 hcon
  exact hnot2 ((hset2 v.pk).mp hcon)

/-- C8: a successful associate call creates or updates only the rows of the
returned assignment: every other assignment's value rows are unchanged (their
filtered list is identical, hence membership is preserved in both directions),
and the assignment table at most gains the returned assignment; the attribute
itself is an immutable input of the embedding, so its value set cannot change. -/
theorem claim_C8 {inst : Inst} {attr : Attribute} {vals : List AttributeValue}
    {ss : Option SiteSettings} {s : Store} {a : Assignment} {s3 : Store}
    (h : associate_attribute_values_to_instance inst attr vals ss s =
      Except.ok (a, s3)) :
    (s3.assigned_values.filter (fun av => decide (av.assignment_pk ≠ a.pk)) =
      s.assigned_values.filter (fun av => decide (av.assignment_pk ≠ a.pk))) ∧
    (s3.assignments = s.assignments ∨ s3.assignments = s.assignments ++ [a]) ∧
    (∀ av ∈ s.assigned_values, av.assignment_pk ≠ a.pk → av ∈ s3.assigned_values) ∧
    (∀ av ∈ s3.assigned_values, av.assignment_pk ≠ a.pk → av ∈ s.assigned_values) := by
  obtain ⟨hfilter, hassign⟩ := associate_frame h
  refine ⟨hfilter, hassign, ?_, ?_⟩
  · intro av hav hne
    have hmem : av ∈ s3.assigned_values.filter
        (fun av => decide (av.assignment_pk ≠ a.pk)) := by
      rw [hfilter, List.mem_filter]
      exact ⟨hav, by simpa using hne⟩
    exact (List.mem_filter.mp hmem).1
  · intro av hav hne
    have hmem : av ∈ s3.assigned_values.filter
        (fun av => decide (av.assignment_pk ≠ a.pk)) := by
      rw [List.mem_filter]
      exact ⟨hav, by simpa using hne⟩
    rw [hfilter] at hmem
    exact (List.mem_filter.mp hmem).1

/-- C2: for every successful associate call with a well-formed store and a
sequence of distinct value ids, the assignment's value rows afterwards carry
exactly the dense sort orders 0..n-1: each row's sort order is the position
of its value id in the supplied sequence, and the multiset of sort orders is
exactly {some 0, ..., some (n-1)}. -/
theorem claim_C2 {inst : Inst} {attr : Attribute} {vals : List AttributeValue}
    {ss : Option SiteSettings} {s : Store} {a : Assignment} {s3 : Store}
    (hwf : StoreWf s)
    (hvnodup : (vals.map (fun v => v.pk)).Nodup)
    (h : associate_attribute_values_to_instance inst attr vals ss s =
      Except.ok (a, s3)) :
    (∀ av ∈ assignment_rows s3 a.pk,
      av.sort_order = some ((vals.map (fun v => v.pk)).indexOf av.value_pk)) ∧
    ((assignment_rows s3 a.pk).map (fun av => av.sort_order)).Perm
      ((List.range vals.length).map some) := by
  obtain ⟨hv, s1, hassoc, hsort⟩ := associate_ok_inversion_full h
  obtain ⟨links, rel, hres, hlink, hgoc⟩ := _associate_ok_inversion hassoc
  have hs1 : s1 = (get_or_create s inst.kind inst.pk rel.pk).2 := congrArg Prod.snd hgoc
  have hav1 : s1.assigned_values = s.assigned_values := by
    rw [hs1]
    exact get_or_create_av s inst.kind inst.pk rel.pk
  have hwf1 : StoreWf s1 := by
    unfold StoreWf
    rw [hav1]
    exact hwf
  have hshape := sort_after_set_shape hres hsort
  have hnodup2 : ((assignment_rows (values_set s1 a.pk vals) a.pk).map
      (fun av => av.value_pk)).Nodup := values_set_rows_nodup hwf1
  have hiff2 : ∀ p, p ∈ (assignment_rows (values_set s1 a.pk vals) a.pk).map
      (fun av => av.value_pk) ↔ p ∈ vals.map (fun v => v.pk) :=
    values_set_rows_values_iff
  have hso : ∀ av ∈ assignment_rows s3 a.pk,
      av.sort_order = some ((vals.map (fun v => v.pk)).indexOf av.value_pk) := by
    rw [hshape]
    exact bulk_update_sorted_rows hvnodup hnodup2 hiff2
  refine ⟨hso, ?_⟩
  have hvals3 : (assignment_rows s3 a.pk).map (fun av => av.value_pk) =
      (assignment_rows (values_set s1 a.pk vals) a.pk).map (fun av => av.value_pk) := by
    rw [hshape]
    exact bulk_update_rows_values _ _ _
  have hmapso : (assignment_rows s3 a.pk).map (fun av => av.sort_order) =
      ((assignment_rows s3 a.pk).map (fun av => av.value_pk)).map
        (fun p => some ((vals.map (fun v => v.pk)).indexOf p)) := by
    rw [List.map_map]
    apply List.map_congr_left
    intro av hav
    exact hso av hav
  have hperm2 : ((assignment_rows (values_set s1 a.pk vals) a.pk).map
      (fun av => av.value_pk)).Perm (vals.map (fun v => v.pk)) :=
    (List.perm_ext_iff_of_nodup hnodup2 hvnodup).mpr hiff2
  have hrange : ((vals.map (fun v => v.pk)).map
      (fun p => some ((vals.map (fun v => v.pk)).indexOf p))) =
      (List.range vals.length).map some := by
    rw [show (fun p => some ((vals.map (fun v => v.pk)).indexOf p)) =
      (some ∘ (fun p => (vals.map (fun v => v.pk)).indexOf p)) from rfl]
    rw [← List.map_map, map_indexOf_self hvnodup, List.length_map]
  rw [hmapso, hvals3, ← hrange]
  exact hperm2.map _

/-- C4: associate is idempotent on a well-formed store: with identical
arguments a second call returns the same assignment and leaves the store
exactly as the first call did; the assignment row is found again by its key
rather than duplicated, and any key that had at most one assignment row
before the call has at most one afterwards. -/
theorem claim_C4 {inst : Inst} {attr : Attribute} {vals : List AttributeValue}
    {ss : Option SiteSettings} {s : Store} {links : List Link} {rel : Link}
    (hwf : StoreWf s)
    (hres : resolved_links inst ss = some links)
    (hlink : link_get links attr.pk = Except.ok rel)
    (hown : ∀ v ∈ vals, v.pk ∈ attr.value_pks) :
    ∃ a s3, associate_attribute_values_to_instance inst attr vals ss s =
        Except.ok (a, s3) ∧
      associate_attribute_values_to_instance inst attr vals ss s3 =
        Except.ok (a, s3) ∧
      (∀ (q : EntityKind) (i2 l2 : Nat),
        s.assignments.countP (fun x =>
          decide (x.kind = q ∧ x.instance_pk = i2 ∧ x.link_pk = l2)) ≤ 1 →
        s3.assignments.countP (fun x =>
          decide (x.kind = q ∧ x.instance_pk = i2 ∧ x.link_pk = l2)) ≤ 1) := by
  obtain ⟨a, s3, hok, ha, hs3⟩ := associate_ok_main s hres hlink hown
  have hwf1 : StoreWf (get_or_create s inst.kind inst.pk rel.pk).2 := by
    unfold StoreWf
    rw [get_or_create_av]
    exact hwf
  refine ⟨a, s3, hok, ?_, ?_⟩
  · have hpair : (a, (get_or_create s inst.kind inst.pk rel.pk).2) =
        get_or_create s inst.kind inst.pk rel.pk := by rw [ha]
    have hA3 : s3.assignments =
        ((get_or_create s inst.kind inst.pk rel.pk).2).assignments := by
      rw [hs3, bulk_update_assignments, values_set_assignments]
    have hgocfound : get_or_create s3 inst.kind inst.pk rel.pk = (a, s3) :=
      get_or_create_found inst.kind inst.pk rel.pk hpair hA3
    have hassoc2 : _associate_attribute_to_instance inst attr.pk ss s3 =
        Except.ok (a, s3) := by
      have h0 := _associate_ok_of_resolved s3 hres hlink
      rw [hgocfound] at h0
      exact h0
    have hpipe2 := associate_eq_pipeline (validate_ok_of_owned hown) hassoc2
    -- the rows of the assignment in s3, via the first call's shape
    have hvals3 : (assignment_rows s3 a.pk).map (fun av => av.value_pk) =
        (assignment_rows
          (values_set (get_or_create s inst.kind inst.pk rel.pk).2 a.pk vals) a.pk).map
          (fun av => av.value_pk) := by
      rw [hs3]
      exact bulk_update_rows_values _ _ _
    have hset3 : ∀ p, p ∈ (assignment_rows s3 a.pk).map (fun av => av.value_pk) ↔
        p ∈ vals.map (fun v => v.pk) := by
      intro p
      rw [hvals3]
      exact values_set_rows_values_iff p
    -- replacing with the same value set is a no-op on s3
    have hvsid : values_set s3 a.pk vals = s3 := by
      apply values_set_id
      · intro av hav heq
        apply (hset3 av.value_pk).mp
        rw [List.mem_map]
        refine ⟨av, ?_, rfl⟩
        unfold assignment_rows
        rw [List.mem_filter]
        exact ⟨hav, by simp [heq]⟩
      · intro p hp
        obtain ⟨av, hav, hval⟩ := List.mem_map.mp ((hset3 p).mpr hp)
        refine ⟨av, ?_, assignment_rows_assignment s3 a.pk av hav, hval⟩
        unfold assignment_rows at hav
        exact (List.mem_filter.mp hav).1
    -- the stamped sorted rows of s3 coincide with the first call's update list
    have hmem3 : ∀ av ∈ assignment_rows s3 a.pk,
        av.value_pk ∈ vals.map (fun v => v.pk) := by
      intro av hav
      apply (hset3 av.value_pk).mp
      exact List.mem_map.mpr ⟨av, hav, rfl⟩
    have hsvr_eq : sorted_value_rows (vals.map (fun v => v.pk)) (assignment_rows s3 a.pk) =
        sorted_value_rows (vals.map (fun v => v.pk))
          (assignment_rows
            (values_set (get_or_create s inst.kind inst.pk rel.pk).2 a.pk vals) a.pk) := by
      exact sorted_value_rows_congr hvals3 (assignment_rows_assignment _ a.pk)
        (assignment_rows_assignment _ a.pk) values_set_rows_mem
    have hsorteq : sort_assigned_attribute_values inst a vals s3 =
        Except.ok (bulk_update s3 (sorted_value_rows (vals.map (fun v => v.pk))
          (assignment_rows s3 a.pk))) :=
      sort_eq_ok (mapping_isSome_of_resolved hres) hmem3
    have hbu3 : bulk_update s3 (sorted_value_rows (vals.map (fun v => v.pk))
        (assignment_rows s3 a.pk)) = s3 := by
      rw [hsvr_eq]
      conv_lhs => rw [hs3]
      rw [bulk_update_idem]
      rw [← hs3]
    rw [hpipe2, hvsid, hsorteq, hbu3, except_bind_ok]
  · intro q i2 l2 hcount
    have hassign3 : s3.assignments =
        ((get_or_create s inst.kind inst.pk rel.pk).2).assignments := by
      rw [hs3, bulk_update_assignments, values_set_assignments]
    rw [hassign3]
    exact get_or_create_countP inst.kind inst.pk rel.pk q i2 l2 hcount

/-! ### Concrete data for the witnesses -/

/-- A product instance whose type links attribute 10 through link row 100. -/
def exProduct : Inst :=
  { pk := 1, kind := EntityKind.product,
    type_links := [{ pk := 100, attribute_id := 10 }] }

/-- The attribute ("Color") with three owned values 1, 2, 3. -/
def exColor : Attribute := { pk := 10, value_pks := [1, 2, 3] }

/-- The empty store. -/
def exStore : Store := { assignments := [], assigned_values := [], next_assignment_pk := 0 }

/-- The type-level link row binding attribute 10. -/
def exLink : Link := { pk := 100, attribute_id := 10 }

/-- The assignment row the first call on the empty store creates. -/
def exAssignment : Assignment :=
  { pk := 0, kind := EntityKind.product, instance_pk := 1, link_pk := 100 }

/-- The store after associating values [3, 1] on the empty store. -/
def exStoreAfter : Store :=
  { assignments := [exAssignment],
    assigned_values := [{ assignment_pk := 0, value_pk := 3, sort_order := some 0 },
      { assignment_pk := 0, value_pk := 1, sort_order := some 1 }],
    next_assignment_pk := 1 }

/-- A product instance whose type has no link for any attribute. -/
def exProductNoLink : Inst := { pk := 1, kind := EntityKind.product, type_links := [] }

/-- A store holding one value row (value 5) for assignment 0. -/
def exStoreStray : Store :=
  { assignments := [exAssignment],
    assigned_values := [{ assignment_pk := 0, value_pk := 5, sort_order := none }],
    next_assignment_pk := 1 }

theorem claim_C3_witness :
    (∃ v ∈ [(⟨7⟩ : AttributeValue)], v.pk ∉ exColor.value_pks) ∧
    (associate_attribute_values_to_instance exProduct exColor [⟨7⟩] none exStore =
      Except.error AssocError.valueOwnership ∧
    ∀ ids : Finset Nat, (validate_attribute_owns_values exColor ids = Except.ok () ↔
      ids ⊆ exColor.value_pks.toFinset)) :=
  ⟨by decide, claim_C3 (by decide)⟩

theorem claim_C5_witness :
    resolved_links exProductNoLink none = some [] ∧
    (∀ l ∈ ([] : List Link), l.attribute_id ≠ exColor.pk) ∧
    (∀ v ∈ [(⟨1⟩ : AttributeValue)], v.pk ∈ exColor.value_pks) ∧
    associate_attribute_values_to_instance exProductNoLink exColor [⟨1⟩] none exStore =
      Except.error AssocError.linkNotFound :=
  ⟨rfl, by decide, by decide, claim_C5 rfl (by decide) (by decide)⟩

theorem claim_C6_witness :
    (instance_to_value_assignment_mapping exProduct.kind).isSome = true ∧
    (∃ av ∈ assignment_rows exStoreStray exAssignment.pk,
      ¬ av.value_pk ∈ ([(⟨3⟩ : AttributeValue)].map (fun v => v.pk))) ∧
    sort_assigned_attribute_values exProduct exAssignment [⟨3⟩] exStoreStray =
      Except.error AssocError.valueNotInAssignment :=
  ⟨rfl, by decide, claim_C6 rfl (by decide)⟩

theorem claim_C7_witness :
    (⟨1, EntityKind.other ("Order"), []⟩ : Inst).kind = EntityKind.other ("Order") ∧
    (∀ v ∈ [(⟨1⟩ : AttributeValue)], v.pk ∈ exColor.value_pks) ∧
    associate_attribute_values_to_instance ⟨1, EntityKind.other ("Order"), []⟩ exColor
      [⟨1⟩] none exStore = Except.error AssocError.unsupportedEntity :=
  ⟨rfl, by decide, claim_C7 rfl (by decide)⟩

theorem claim_C9_witness :
    ((⟨1, EntityKind.category, []⟩ : Inst).kind = EntityKind.category ∨
      (⟨1, EntityKind.category, []⟩ : Inst).kind = EntityKind.collection) ∧
    (∀ v ∈ [(⟨1⟩ : AttributeValue)], v.pk ∈ exColor.value_pks) ∧
    associate_attribute_values_to_instance ⟨1, EntityKind.category, []⟩ exColor
      [⟨1⟩] none exStore = Except.error AssocError.attributeError :=
  ⟨Or.inl rfl, by decide, claim_C9 (Or.inl rfl) (by decide)⟩

theorem claim_C10_witness :
    resolved_links exProduct none = some [exLink] ∧
    link_get [exLink] exColor.pk = Except.ok exLink ∧
    (∃ a s3, associate_attribute_values_to_instance exProduct exColor [] none exStore =
        Except.ok (a, s3) ∧
      assignment_rows s3 a.pk = [] ∧
      s3.assigned_values =
        exStore.assigned_values.filter (fun av => decide (av.assignment_pk ≠ a.pk))) :=
  ⟨rfl, rfl, claim_C10 rfl rfl⟩

theorem claim_C1_witness :
    resolved_links exProduct none = some [exLink] ∧
    link_get [exLink] exColor.pk = Except.ok exLink ∧
    (∀ v ∈ [(⟨3⟩ : AttributeValue), ⟨1⟩], v.pk ∈ exColor.value_pks) ∧
    (∃ a s3, associate_attribute_values_to_instance exProduct exColor [⟨3⟩, ⟨1⟩]
        none exStore = Except.ok (a, s3) ∧
      (∀ p, p ∈ (assignment_rows s3 a.pk).map (fun av => av.value_pk) ↔
        p ∈ ([(⟨3⟩ : AttributeValue), ⟨1⟩]).map (fun v => v.pk)) ∧
      ∀ vals2 : List AttributeValue, (∀ v ∈ vals2, v.pk ∈ exColor.value_pks) →
        ∃ s4, associate_attribute_values_to_instance exProduct exColor vals2 none s3 =
            Except.ok (a, s4) ∧
          (∀ p, p ∈ (assignment_rows s4 a.pk).map (fun av => av.value_pk) ↔
            p ∈ vals2.map (fun v => v.pk)) ∧
          (∀ v ∈ [(⟨3⟩ : AttributeValue), ⟨1⟩], v.pk ∉ vals2.map (fun v => v.pk) →
            v.pk ∉ (assignment_rows s4 a.pk).map (fun av => av.value_pk))) :=
  ⟨rfl, rfl, by decide, claim_C1 rfl rfl (by decide)⟩

theorem claim_C4_witness :
    StoreWf exStore ∧
    resolved_links exProduct none = some [exLink] ∧
    link_get [exLink] exColor.pk = Except.ok exLink ∧
    (∀ v ∈ [(⟨3⟩ : AttributeValue), ⟨1⟩], v.pk ∈ exColor.value_pks) ∧
    (∃ a s3, associate_attribute_values_to_instance exProduct exColor [⟨3⟩, ⟨1⟩]
        none exStore = Except.ok (a, s3) ∧
      associate_attribute_values_to_instance exProduct exColor [⟨3⟩, ⟨1⟩] none s3 =
        Except.ok (a, s3) ∧
      (∀ (q : EntityKind) (i2 l2 : Nat),
        exStore.assignments.countP (fun x =>
          decide (x.kind = q ∧ x.instance_pk = i2 ∧ x.link_pk = l2)) ≤ 1 →
        s3.assignments.countP (fun x =>
          decide (x.kind = q ∧ x.instance_pk = i2 ∧ x.link_pk = l2)) ≤ 1)) :=
  ⟨by unfold StoreWf; decide, rfl, rfl, by decide,
    claim_C4 (by unfold StoreWf; decide) rfl rfl (by decide)⟩

unseal List.merge List.mergeSort in
theorem claim_C2_witness :
    StoreWf exStore ∧
    (([(⟨3⟩ : AttributeValue), ⟨1⟩]).map (fun v => v.pk)).Nodup ∧
    associate_attribute_values_to_instance exProduct exColor [⟨3⟩, ⟨1⟩] none exStore =
      Except.ok (exAssignment, exStoreAfter) ∧
    ((∀ av ∈ assignment_rows exStoreAfter exAssignment.pk,
      av.sort_order = some ((([(⟨3⟩ : AttributeValue), ⟨1⟩]).map
        (fun v => v.pk)).indexOf av.value_pk)) ∧
    ((assignment_rows exStoreAfter exAssignment.pk).map (fun av => av.sort_order)).Perm
      ((List.range ([(⟨3⟩ : AttributeValue), ⟨1⟩]).length).map some)) :=
  ⟨by unfold StoreWf; decide, by decide, rfl,
    claim_C2 (by unfold StoreWf; decide) (by decide)
      (show associate_attribute_values_to_instance exProduct exColor [⟨3⟩, ⟨1⟩]
          none exStore = Except.ok (exAssignment, exStoreAfter) from rfl)⟩

unseal List.merge List.mergeSort in
theorem claim_C8_witness :
    associate_attribute_values_to_instance exProduct exColor [⟨3⟩, ⟨1⟩] none exStore =
      Except.ok (exAssignment, exStoreAfter) ∧
    ((exStoreAfter.assigned_values.filter
        (fun av => decide (av.assignment_pk ≠ exAssignment.pk)) =
      exStore.assigned_values.filter
        (fun av => decide (av.assignment_pk ≠ exAssignment.pk))) ∧
    (exStoreAfter.assignments = exStore.assignments ∨
      exStoreAfter.assignments = exStore.assignments ++ [exAssignment]) ∧
    (∀ av ∈ exStore.assigned_values, av.assignment_pk ≠ exAssignment.pk →
      av ∈ exStoreAfter.assigned_values) ∧
    (∀ av ∈ exStoreAfter.assigned_values, av.assignment_pk ≠ exAssignment.pk →
      av ∈ exStore.assigned_values)) :=
  ⟨rfl, claim_C8 (show associate_attribute_values_to_instance exProduct exColor
      [⟨3⟩, ⟨1⟩] none exStore = Except.ok (exAssignment, exStoreAfter) from rfl)⟩

end AttrAssoc
